import Mathlib

/-!
# Snake game for AVR: a shallow embedding of the game logic and the joystick sampler

The definitions follow `src/include/snake_game.h`, `src/include/async_joystick.h`
and the configuration chosen in `src/main.c`.  C arrays are total functions on
their indices, `unsigned int` is the 16-bit AVR type, and a function that can
hand back an uninitialised local returns `Option`: `snake_get_empty_coord` has no
result on a map without an empty cell, and neither has the food step of
`snake_game_update` that calls it there.
-/

namespace SnakeAvr

/-! ## Configuration (src/main.c) -/

/-- Capacity of the circular body buffer, `#define MAX_SNAKE_LENGTH 64`. -/
def MAX_SNAKE_LENGTH : Nat := 64

/-- Number of columns, `#define SNAKE_GAME_WIDTH 8`. -/
def SNAKE_GAME_WIDTH : Nat := 8

/-- Number of rows, `#define SNAKE_GAME_HEIGHT 8`. -/
def SNAKE_GAME_HEIGHT : Nat := 8

/-- Number of values of the 16-bit `unsigned int` of the target. -/
def UINT_MOD : Nat := 65536

/-! ## Data model (src/include/snake_game.h) -/

/-- The struct `coord_t`: row `y` and column `x`. -/
structure coord_t where
  y : Nat
  x : Nat
deriving DecidableEq, Repr

/-- The enum `snake_dir_t`. -/
inductive snake_dir_t where
  | DIR_UNKNOWN
  | DIR_LEFT
  | DIR_RIGHT
  | DIR_UP
  | DIR_DOWN
deriving DecidableEq, Repr

open snake_dir_t

/-- Integer value of a `snake_dir_t` constant:
`DIR_UNKNOWN, DIR_LEFT = -1, DIR_RIGHT = 1, DIR_UP = -2, DIR_DOWN = 2`. -/
def snake_dir_t.toInt : snake_dir_t → Int
  | DIR_UNKNOWN => 0
  | DIR_LEFT => -1
  | DIR_RIGHT => 1
  | DIR_UP => -2
  | DIR_DOWN => 2

/-- The enum `cell_t`, the inhabitant of a map cell. -/
inductive cell_t where
  | CELL_EMPTY
  | CELL_SNAKE
  | CELL_RABBIT
deriving DecidableEq, Repr

open cell_t

/-- The array type `snake_game_map_t`, indexed `map[y][x]`. -/
abbrev snake_game_map_t := Nat → Nat → cell_t

/-- The struct `snake_t`: the array `segments` with the indices `tail` and `head`. -/
structure snake_t where
  segments : Nat → coord_t
  dir : snake_dir_t
  tail : Nat
  head : Nat

/-- The struct `snake_game_t`. -/
structure snake_game_t where
  is_finished : Bool
  score : Nat
  map : snake_game_map_t
  snake : snake_t
  rabbit : coord_t

/-- Read access `MAP_ELEM(map, coord)`. -/
def MAP_ELEM (map : snake_game_map_t) (coord : coord_t) : cell_t :=
  map coord.y coord.x

/-- Write access `MAP_ELEM(map, coord) = v`. -/
def MAP_SET (map : snake_game_map_t) (coord : coord_t) (v : cell_t) : snake_game_map_t :=
  fun y x => if y = coord.y ∧ x = coord.x then v else map y x

/-- Array store `segments[i] = c`. -/
def seg_set (segments : Nat → coord_t) (i : Nat) (c : coord_t) : Nat → coord_t :=
  fun j => if j = i then c else segments j

/-! ## Body buffer -/

/-- The function `snake_add_segment`. -/
def snake_add_segment (s : snake_t) (segment : coord_t) : snake_t :=
  let head := ((s.head + 1) % UINT_MOD) % MAX_SNAKE_LENGTH
  { s with head := head, segments := seg_set s.segments head segment }

/-- The function `snake_pop_segment`. -/
def snake_pop_segment (s : snake_t) : snake_t :=
  { s with tail := ((s.tail + 1) % UINT_MOD) % MAX_SNAKE_LENGTH }

/-- The function `snake_move`. -/
def snake_move (s : snake_t) (new_head : coord_t) : snake_t :=
  snake_pop_segment (snake_add_segment s new_head)

/-- The function `snake_choose_dir`: opposite directions have opposite values. -/
def snake_choose_dir (s : snake_t) (next_dir : snake_dir_t) : snake_dir_t :=
  if next_dir = DIR_UNKNOWN ∨ next_dir.toInt = - s.dir.toInt then s.dir else next_dir

/-- The function `snake_next_head_pos`. -/
def snake_next_head_pos (s : snake_t) : coord_t :=
  let new_head := s.segments s.head
  match s.dir with
  | DIR_LEFT =>
      { new_head with x := ((new_head.x + SNAKE_GAME_WIDTH - 1) % UINT_MOD) % SNAKE_GAME_WIDTH }
  | DIR_RIGHT => { new_head with x := ((new_head.x + 1) % UINT_MOD) % SNAKE_GAME_WIDTH }
  | DIR_UP =>
      { new_head with y := ((new_head.y + SNAKE_GAME_HEIGHT - 1) % UINT_MOD) % SNAKE_GAME_HEIGHT }
  | DIR_DOWN => { new_head with y := ((new_head.y + 1) % UINT_MOD) % SNAKE_GAME_HEIGHT }
  | DIR_UNKNOWN => new_head

/-- The function `snake_clear_game_map`: both loops write `CELL_EMPTY`. -/
def snake_clear_game_map (map : snake_game_map_t) : snake_game_map_t :=
  (List.range SNAKE_GAME_HEIGHT).foldl
    (fun m y => (List.range SNAKE_GAME_WIDTH).foldl
      (fun m x => MAP_SET m ⟨y, x⟩ CELL_EMPTY) m) map

/-- The function `snake_init`. -/
def snake_init (s : snake_t) (init_pos : coord_t) : snake_t :=
  { s with dir := DIR_UP, segments := seg_set s.segments 0 init_pos, head := 0, tail := 0 }

/-! ## Food placement -/

/-- The function `count_empty_neighbours`; a comparison contributes 1 when it holds. -/
def count_empty_neighbours (map : snake_game_map_t) (y x : Nat) : Int :=
  if map y x ≠ CELL_EMPTY then -1
  else
    let res : Int := 0
    let res := if y > 0 then res + (if map (y - 1) x = CELL_EMPTY then 1 else 0) else res
    let res := if y < SNAKE_GAME_HEIGHT - 1 then
      res + (if map (y + 1) x = CELL_EMPTY then 1 else 0) else res
    let res := if x > 0 then res + (if map y (x - 1) = CELL_EMPTY then 1 else 0) else res
    let res := if x < SNAKE_GAME_WIDTH - 1 then
      res + (if map y (x + 1) = CELL_EMPTY then 1 else 0) else res
    res

/-- Loop state of `snake_get_empty_coord`: `best_coord` (not yet written while it is
`none`) and `maxempty`. -/
abbrev scan_state := Option coord_t × Int

/-- Body of the inner loop of `snake_get_empty_coord`. -/
def scan_cell (map : snake_game_map_t) (st : scan_state) (y x : Nat) : scan_state :=
  let nempty := count_empty_neighbours map y x
  if nempty > st.2 then (some ⟨y, x⟩, nempty) else st

/-- Inner loop of `snake_get_empty_coord` over the columns of row `y`. -/
def scan_row (map : snake_game_map_t) (st : scan_state) (y : Nat) : scan_state :=
  (List.range SNAKE_GAME_WIDTH).foldl (fun st x => scan_cell map st y x) st

/-- The function `snake_get_empty_coord`.  The result is `none` when `best_coord` is
returned without ever having been written. -/
def snake_get_empty_coord (map : snake_game_map_t) : Option coord_t :=
  ((List.range SNAKE_GAME_HEIGHT).foldl (fun st y => scan_row map st y) (none, -1)).1

/-! ## Game -/

/-- The function `snake_game_init`. -/
def snake_game_init (game : snake_game_t) : Option snake_game_t :=
  let snake_init_pos : coord_t := ⟨3, 3⟩
  let snake := snake_init game.snake snake_init_pos
  let map := snake_clear_game_map game.map
  let map := MAP_SET map snake_init_pos CELL_SNAKE
  match snake_get_empty_coord map with
  | none => none
  | some rabbit_init_pos =>
    some { is_finished := false
           score := 1
           map := MAP_SET map rabbit_init_pos CELL_RABBIT
           snake := snake
           rabbit := rabbit_init_pos }

/-- The function `snake_game_update`. -/
def snake_game_update (game : snake_game_t) (next_dir : snake_dir_t) : Option snake_game_t :=
  if game.is_finished then some game
  else
    let snake := { game.snake with dir := snake_choose_dir game.snake next_dir }
    let new_head := snake_next_head_pos snake
    if new_head.x = game.rabbit.x ∧ new_head.y = game.rabbit.y then
      match snake_get_empty_coord game.map with
      | none => none
      | some rabbit =>
        let map := MAP_SET game.map rabbit CELL_RABBIT
        let snake := snake_add_segment snake new_head
        let map := MAP_SET map new_head CELL_SNAKE
        some { is_finished := game.is_finished
               score := (game.score + 1) % UINT_MOD
               map := map
               snake := snake
               rabbit := rabbit }
    else
      let tail := snake.segments snake.tail
      let map := MAP_SET game.map tail CELL_EMPTY
      if MAP_ELEM map new_head ≠ CELL_EMPTY then
        some { game with is_finished := true, map := map, snake := snake }
      else
        let snake := snake_move snake new_head
        some { game with map := MAP_SET map new_head CELL_SNAKE, snake := snake }

/-- A sequence of `snake_game_update` calls, one per requested direction. -/
def snake_game_run (game : snake_game_t) : List snake_dir_t → Option snake_game_t
  | [] => some game
  | d :: ds =>
    match snake_game_update game d with
    | none => none
    | some game1 => snake_game_run game1 ds

/-- A game struct with all storage zeroed, as a C global is before `snake_game_init`. -/
def zero_game : snake_game_t :=
  { is_finished := false
    score := 0
    map := fun _ _ => CELL_EMPTY
    snake := { segments := fun _ => ⟨0, 0⟩, dir := DIR_UNKNOWN, tail := 0, head := 0 }
    rabbit := ⟨0, 0⟩ }

/-- The game states reached from `snake_game_init` by a finite sequence of
`snake_game_update` calls each of which has a result.  A run has no next state at a
food step on a map without an empty cell, where `snake_get_empty_coord` returns
`best_coord` unwritten; `full_grid_state` shows that such a step is reached. -/
def Reachable (game : snake_game_t) : Prop :=
  ∃ (game0 game1 : snake_game_t) (ds : List snake_dir_t),
    snake_game_init game0 = some game1 ∧ snake_game_run game1 ds = some game

/-! ## Specification-side notions -/

/-- Row-major order on cells: `(y1, x1)` is scanned before `(y2, x2)`. -/
def row_major_lt (y1 x1 y2 x2 : Nat) : Prop :=
  y1 < y2 ∨ (y1 = y2 ∧ x1 < x2)

/-- The map has a `CELL_EMPTY` cell inside the grid. -/
def has_empty (map : snake_game_map_t) : Prop :=
  ∃ y x, y < SNAKE_GAME_HEIGHT ∧ x < SNAKE_GAME_WIDTH ∧ map y x = CELL_EMPTY

/-- Invariant of the scan of `snake_get_empty_coord` over the cells `P` seen so far:
either nothing was selected and no seen cell is empty, or the selected cell is a seen
cell whose count is `maxempty`, no seen cell has a larger count and every seen cell
before it has a smaller one; the selected cell is empty, its count being at least 0. -/
def ScanInv (map : snake_game_map_t) (st : scan_state) (P : Nat → Nat → Prop) : Prop :=
  (st.1 = none ∧ st.2 = -1 ∧ ∀ y x, P y x → count_empty_neighbours map y x = -1) ∨
  (∃ b, st.1 = some b ∧ P b.y b.x ∧ count_empty_neighbours map b.y b.x = st.2 ∧ 0 ≤ st.2 ∧
    ∀ y x, P y x → count_empty_neighbours map y x ≤ st.2 ∧
      (row_major_lt y x b.y b.x → count_empty_neighbours map y x < st.2))

/-- The snake after the heading has been resolved in `snake_game_update`. -/
def turned_snake (game : snake_game_t) (next_dir : snake_dir_t) : snake_t :=
  { game.snake with dir := snake_choose_dir game.snake next_dir }

/-- The local `new_head` of `snake_game_update`. -/
def new_head_of (game : snake_game_t) (next_dir : snake_dir_t) : coord_t :=
  snake_next_head_pos (turned_snake game next_dir)

/-- The exact opposite of a heading, in the words of the spec: LEFT and RIGHT are a
pair, UP and DOWN are a pair, and no direction is paired with itself. -/
def opposite_dir : snake_dir_t → snake_dir_t
  | DIR_UNKNOWN => DIR_UNKNOWN
  | DIR_LEFT => DIR_RIGHT
  | DIR_RIGHT => DIR_LEFT
  | DIR_UP => DIR_DOWN
  | DIR_DOWN => DIR_UP

/-- Number of live segments, `((head - tail) mod MAX_SNAKE_LENGTH) + 1`, for indices
below `MAX_SNAKE_LENGTH`. -/
def live_length (s : snake_t) : Nat :=
  (s.head + MAX_SNAKE_LENGTH - s.tail) % MAX_SNAKE_LENGTH + 1

/-- The live body `segments[tail], ..., segments[head]`, indices taken circularly. -/
def live_segments (s : snake_t) : List coord_t :=
  (List.range (live_length s)).map (fun i => s.segments ((s.tail + i) % MAX_SNAKE_LENGTH))

/-- The set of grid cells marked `CELL_SNAKE` is the set of live body segments. -/
def SnakeCellsAreBody (game : snake_game_t) : Prop :=
  (∀ c ∈ live_segments game.snake, c.y < SNAKE_GAME_HEIGHT ∧ c.x < SNAKE_GAME_WIDTH) ∧
  ∀ y, y < SNAKE_GAME_HEIGHT → ∀ x, x < SNAKE_GAME_WIDTH →
    (game.map y x = CELL_SNAKE ↔ (⟨y, x⟩ : coord_t) ∈ live_segments game.snake)

/-- Exactly one grid cell is `CELL_RABBIT`, the one at the stored food coordinate. -/
def OneRabbit (game : snake_game_t) : Prop :=
  game.rabbit.y < SNAKE_GAME_HEIGHT ∧ game.rabbit.x < SNAKE_GAME_WIDTH ∧
  ∀ y, y < SNAKE_GAME_HEIGHT → ∀ x, x < SNAKE_GAME_WIDTH →
    (game.map y x = CELL_RABBIT ↔ (⟨y, x⟩ : coord_t) = game.rabbit)

/-- The map agrees with the body and the food: the live segments are pairwise
distinct, they are the snake cells, and the food cell is the only rabbit cell. -/
def Consistent (game : snake_game_t) : Prop :=
  (live_segments game.snake).Nodup ∧ SnakeCellsAreBody game ∧ OneRabbit game

/-- Invariant of the game: the indices stay in the buffer, the score is the number
of live segments, and an unfinished game is consistent. -/
def GameInv (game : snake_game_t) : Prop :=
  game.snake.tail < MAX_SNAKE_LENGTH ∧ game.snake.head < MAX_SNAKE_LENGTH ∧
  game.score = live_length game.snake ∧
  (game.is_finished = false → Consistent game)

/-- All cells of the grid. -/
def grid_cells : Finset coord_t :=
  (Finset.range SNAKE_GAME_HEIGHT ×ˢ Finset.range SNAKE_GAME_WIDTH).image
    (fun p => (⟨p.1, p.2⟩ : coord_t))

/-! ## Concrete states used to instantiate the theorems -/

/-- A map with one snake cell at row 3, column 3 and nothing else. -/
def one_snake_map : snake_game_map_t :=
  fun y x => if y = 3 ∧ x = 3 then CELL_SNAKE else CELL_EMPTY

/-- A fresh round written out: one segment at row 3, column 3, heading up, food at
row 1, column 1. -/
def start_game : snake_game_t :=
  { is_finished := false
    score := 1
    map := MAP_SET one_snake_map ⟨1, 1⟩ CELL_RABBIT
    snake := { segments := fun _ => ⟨3, 3⟩, dir := DIR_UP, tail := 0, head := 0 }
    rabbit := ⟨1, 1⟩ }

/-- The state after `snake_game_init` on zeroed storage and the updates `ds`
(`zero_game` itself if some call has no result). -/
def game_after (ds : List snake_dir_t) : snake_game_t :=
  match snake_game_init zero_game with
  | none => zero_game
  | some game =>
    match snake_game_run game ds with
    | none => zero_game
    | some game1 => game1

/-- Twenty requested directions from the initial state.  The food is eaten at (1, 1),
(1, 4), (1, 1) and (1, 6); afterwards the body is (2, 4), (2, 5), (2, 6), (1, 6),
(1, 5) from tail to head, heading left, so that DOWN leads the head into the second
segment (2, 5). -/
def loop_dirs : List snake_dir_t :=
  [DIR_UNKNOWN, DIR_UNKNOWN, DIR_LEFT, DIR_LEFT, DIR_UP, DIR_RIGHT, DIR_RIGHT, DIR_RIGHT,
   DIR_DOWN, DIR_LEFT, DIR_LEFT, DIR_LEFT, DIR_DOWN, DIR_RIGHT, DIR_RIGHT, DIR_RIGHT,
   DIR_RIGHT, DIR_RIGHT, DIR_UP, DIR_LEFT]

/-! ## Joystick sampler (src/include/async_joystick.h) -/

/-- The enum `joystick_dir_t` declared in src/main.c. -/
inductive joystick_dir_t where
  | JOYSTICK_UNKNOWN
  | JOYSTICK_LEFT
  | JOYSTICK_RIGHT
  | JOYSTICK_UP
  | JOYSTICK_DOWN
deriving DecidableEq, Repr

open joystick_dir_t

/-- The anonymous enum of `_joystick_current_pin`. -/
inductive joystick_pin_t where
  | eJoystickCurrentPinVX
  | eJoystickCurrentPinVY
deriving DecidableEq, Repr

open joystick_pin_t

/-- Pin of the first channel, `#define JOYSTICK_VX_PIN 0`. -/
def JOYSTICK_VX_PIN : Nat := 0

/-- Pin of the second channel, `#define JOYSTICK_VY_PIN 1`. -/
def JOYSTICK_VY_PIN : Nat := 1

/-- Default dead zone, `#define JOYSTICK_CUTOFF 10`. -/
def JOYSTICK_CUTOFF : Int := 10

/-- The file-scope state of async_joystick.h, the static local `joystick_new_x` of
the interrupt handler and the two ADC registers it writes.  A registered callback is
a value of `κ`; `none` is `NULL`. -/
structure joystick_t (κ : Type) where
  _joystick_prev_x : Int
  _joystick_prev_y : Int
  _joystick_current_pin : joystick_pin_t
  _joystick_callback : Option κ
  joystick_new_x : Int
  ADMUX : Nat
  ADCSRA : Nat

/-- The macro `ABS(x)`, evaluated in `int`. -/
def ABS (x : Int) : Int :=
  if x > 0 then x else -x

/-- The function `_async_joystick_pos_to_dir`. -/
def _async_joystick_pos_to_dir (x y : Int) : joystick_dir_t :=
  if ABS x < JOYSTICK_CUTOFF ∧ ABS y < JOYSTICK_CUTOFF then JOYSTICK_UNKNOWN
  else if x > 0 ∧ ABS y < x then JOYSTICK_RIGHT
  else if x < 0 ∧ ABS y < -x then JOYSTICK_LEFT
  else if y > 0 then JOYSTICK_UP
  else JOYSTICK_DOWN

/-- Conversion of the 16-bit register value to `int16_t`. -/
def to_int16 (n : Nat) : Int :=
  if n % 65536 < 32768 then ((n % 65536 : Nat) : Int) else ((n % 65536 : Nat) : Int) - 65536

/-- Conversion of an `int` to `int8_t`. -/
def to_int8 (v : Int) : Int :=
  if v % 256 < 128 then v % 256 else v % 256 - 256

/-- The local `adc_val` of the handler, `((int16_t) ADC) / 10 - 51` stored in an
`int8_t`; C division truncates. -/
def adc_val (ADC : Nat) : Int :=
  to_int8 (Int.tdiv (to_int16 ADC) 10 - 51)

/-- The function `async_joystick_start`. -/
def async_joystick_start {κ : Type} (s : joystick_t κ) : joystick_t κ :=
  { s with
    _joystick_prev_x := 0
    _joystick_prev_y := 0
    _joystick_current_pin := eJoystickCurrentPinVX
    ADMUX := JOYSTICK_VX_PIN
    ADCSRA := 0b11011111 }

/-- The function `async_joystick_getdir`. -/
def async_joystick_getdir {κ : Type} (s : joystick_t κ) : joystick_dir_t :=
  _async_joystick_pos_to_dir s._joystick_prev_x s._joystick_prev_y

/-- The function `async_joystick_start_notify`. -/
def async_joystick_start_notify {κ : Type} (s : joystick_t κ) (callback : κ) : joystick_t κ :=
  { s with _joystick_callback := some callback }

/-- The function `async_joystick_stop_notify`. -/
def async_joystick_stop_notify {κ : Type} (s : joystick_t κ) : joystick_t κ :=
  { s with _joystick_callback := none }

/-- The handler `ISR(ADC_vect)` for the register value `ADC`.  The result is the new
state and the calls made, in order, each as the callback and its argument; a call is
made after the stored pair has been written, and what the callback does is not part
of this state. -/
def ISR_ADC_vect {κ : Type} (s : joystick_t κ) (ADC : Nat) :
    joystick_t κ × List (κ × joystick_dir_t) :=
  let adc := adc_val ADC
  if s._joystick_current_pin = eJoystickCurrentPinVX then
    ({ s with
       joystick_new_x := adc
       _joystick_current_pin := eJoystickCurrentPinVY
       ADMUX := JOYSTICK_VY_PIN
       ADCSRA := 0b11011111 }, [])
  else
    let joystick_new_y := adc
    let prev_dir := async_joystick_getdir s
    let new_dir := _async_joystick_pos_to_dir s.joystick_new_x joystick_new_y
    let s1 : joystick_t κ :=
      { s with
        _joystick_prev_x := s.joystick_new_x
        _joystick_prev_y := joystick_new_y
        _joystick_current_pin := eJoystickCurrentPinVX
        ADMUX := JOYSTICK_VX_PIN
        ADCSRA := 0b11011111 }
    match s._joystick_callback with
    | some callback => if prev_dir ≠ new_dir then (s1, [(callback, new_dir)]) else (s1, [])
    | none => (s1, [])

/-- The handler run once per conversion result, collecting the calls made. -/
def ISR_run {κ : Type} (s : joystick_t κ) : List Nat → joystick_t κ × List (κ × joystick_dir_t)
  | [] => (s, [])
  | ADC :: rest =>
    let r := ISR_ADC_vect s ADC
    let r1 := ISR_run r.1 rest
    (r1.1, r.2 ++ r1.2)

/-- Zeroed sampler storage with the callback `0` registered. -/
def zero_joystick : joystick_t Nat :=
  { _joystick_prev_x := 0
    _joystick_prev_y := 0
    _joystick_current_pin := eJoystickCurrentPinVX
    _joystick_callback := some 0
    joystick_new_x := 0
    ADMUX := 0
    ADCSRA := 0 }

/-! ## Direction classifier, tick period and repeated moves -/

/-- The classifier in the words of the spec, with mathematical absolute values and
dead zone `D`: UNKNOWN if `|x| < D` and `|y| < D`; otherwise RIGHT if `x > 0` and
`|y| < x`; otherwise LEFT if `x < 0` and `|y| < -x`; otherwise UP if `y > 0`;
otherwise DOWN. -/
def classify_spec (x y D : Int) : joystick_dir_t :=
  if abs x < D ∧ abs y < D then JOYSTICK_UNKNOWN
  else if x > 0 ∧ abs y < x then JOYSTICK_RIGHT
  else if x < 0 ∧ abs y < -x then JOYSTICK_LEFT
  else if y > 0 then JOYSTICK_UP
  else JOYSTICK_DOWN

/-- The function `score_to_speed` of src/main.c, in milliseconds; the result is
converted to `uint16_t`. -/
def score_to_speed (score : Int) : Int :=
  if score < 3 then 500
  else if score < 5 then 300
  else if score < 10 then 250
  else if score < 15 then 200
  else if score < 25 then (200 - (score - 15) * 10) % 65536
  else 100

/-- A sequence of `snake_move` calls, one per coordinate. -/
def snake_moves (s : snake_t) (cs : List coord_t) : snake_t :=
  cs.foldl snake_move s

/-- Fourteen requested directions from the initial state, after which the body is
(1, 2), (1, 1), (2, 1), (2, 2) from tail to head, heading right, so that UP leads
the head onto the tail cell (1, 2). -/
def square_dirs : List snake_dir_t :=
  [DIR_UNKNOWN, DIR_UNKNOWN, DIR_LEFT, DIR_LEFT, DIR_UP, DIR_RIGHT, DIR_RIGHT, DIR_RIGHT,
   DIR_DOWN, DIR_LEFT, DIR_LEFT, DIR_LEFT, DIR_DOWN, DIR_RIGHT]

/-! ## The run that fills the grid -/

/-- The function `snake_next_head_pos` for a head at `p` with heading `dir`. -/
def next_pos (p : coord_t) (dir : snake_dir_t) : coord_t :=
  snake_next_head_pos { segments := fun _ => p, dir := dir, tail := 0, head := 0 }

/-- What `snake_game_update` depends on in a consistent unfinished state: the live
body from tail to head, the heading and the food coordinate. -/
structure body_state where
  body : List coord_t
  dir : snake_dir_t
  rabbit : coord_t
deriving DecidableEq

/-- The grid of a consistent state with the given body and food coordinate. -/
def body_map (c : body_state) : snake_game_map_t :=
  fun y x =>
    if c.body.any (fun p => p.y == y && p.x == x) then CELL_SNAKE
    else if c.rabbit.y == y && c.rabbit.x == x then CELL_RABBIT
    else CELL_EMPTY

/-- The three paths of `snake_game_update` for an unfinished game, on a `body_state`:
food step, self-collision, move.  The result is `none` on a self-collision and when
`snake_get_empty_coord` returns `best_coord` unwritten. -/
def body_update (c : body_state) (next_dir : snake_dir_t) : Option body_state :=
  match c.body.getLast? with
  | none => none
  | some head =>
    let dir := snake_choose_dir { segments := fun _ => head, dir := c.dir, tail := 0, head := 0 }
      next_dir
    let new_head := next_pos head dir
    if new_head = c.rabbit then
      match snake_get_empty_coord (body_map c) with
      | none => none
      | some rabbit => some { body := c.body ++ [new_head], dir := dir, rabbit := rabbit }
    else if new_head ∈ c.body.tail then none
    else some { body := c.body.tail ++ [new_head], dir := dir, rabbit := c.rabbit }

/-- A sequence of `body_update` steps. -/
def body_run (c : body_state) : List snake_dir_t → Option body_state
  | [] => some c
  | d :: ds =>
    match body_update c d with
    | none => none
    | some c1 => body_run c1 ds

/-- The `body_state` after `snake_game_init`. -/
def init_body : body_state :=
  { body := [⟨3, 3⟩], dir := DIR_UP, rabbit := ⟨1, 1⟩ }

/-- One lap of 64 requested directions along a closed path through all cells of the
grid, starting at row 3, column 3. -/
def ham_lap : List snake_dir_t :=
  List.replicate 2 DIR_LEFT ++ [DIR_DOWN] ++ List.replicate 6 DIR_RIGHT ++ [DIR_DOWN] ++
  List.replicate 6 DIR_LEFT ++ [DIR_DOWN] ++ List.replicate 6 DIR_RIGHT ++ [DIR_DOWN] ++
  List.replicate 7 DIR_LEFT ++ List.replicate 7 DIR_UP ++ List.replicate 7 DIR_RIGHT ++
  [DIR_DOWN] ++ List.replicate 6 DIR_LEFT ++ [DIR_DOWN] ++ List.replicate 6 DIR_RIGHT ++
  [DIR_DOWN] ++ List.replicate 4 DIR_LEFT

/-- The requested directions of the run that fills the grid: fourteen laps and the
first twelve steps of the fifteenth, 908 updates in all. -/
def full_dirs : List snake_dir_t :=
  (List.replicate 14 ham_lap).flatten ++ ham_lap.take 12

/-- The `body_state` after the 908 updates `full_dirs`: the body lies on 63 cells,
head at row 5, column 5 heading left, and the food is on the one cell left, row 5,
column 4, next to the head. -/
def full_body : body_state :=
  { body :=
    [⟨5, 3⟩, ⟨5, 2⟩, ⟨5, 1⟩, ⟨6, 1⟩, ⟨6, 2⟩, ⟨6, 3⟩, ⟨6, 4⟩, ⟨6, 5⟩, ⟨6, 6⟩, ⟨6, 7⟩,
     ⟨7, 7⟩, ⟨7, 6⟩, ⟨7, 5⟩, ⟨7, 4⟩, ⟨7, 3⟩, ⟨7, 2⟩, ⟨7, 1⟩, ⟨7, 0⟩, ⟨6, 0⟩, ⟨5, 0⟩,
     ⟨4, 0⟩, ⟨3, 0⟩, ⟨2, 0⟩, ⟨1, 0⟩, ⟨0, 0⟩, ⟨0, 1⟩, ⟨0, 2⟩, ⟨0, 3⟩, ⟨0, 4⟩, ⟨0, 5⟩,
     ⟨0, 6⟩, ⟨0, 7⟩, ⟨1, 7⟩, ⟨1, 6⟩, ⟨1, 5⟩, ⟨1, 4⟩, ⟨1, 3⟩, ⟨1, 2⟩, ⟨1, 1⟩, ⟨2, 1⟩,
     ⟨2, 2⟩, ⟨2, 3⟩, ⟨2, 4⟩, ⟨2, 5⟩, ⟨2, 6⟩, ⟨2, 7⟩, ⟨3, 7⟩, ⟨3, 6⟩, ⟨3, 5⟩, ⟨3, 4⟩,
     ⟨3, 3⟩, ⟨3, 2⟩, ⟨3, 1⟩, ⟨4, 1⟩, ⟨4, 2⟩, ⟨4, 3⟩, ⟨4, 4⟩, ⟨4, 5⟩, ⟨4, 6⟩, ⟨4, 7⟩,
     ⟨5, 7⟩, ⟨5, 6⟩, ⟨5, 5⟩]
    dir := DIR_LEFT
    rabbit := ⟨5, 4⟩ }

/-- The 64 cells of the grid in the order in which a head starting at row 3, column 3
visits them along `ham_lap`; the last one is row 3, column 3 again. -/
def ham_cells : List coord_t :=
  [⟨3, 2⟩, ⟨3, 1⟩, ⟨4, 1⟩, ⟨4, 2⟩, ⟨4, 3⟩, ⟨4, 4⟩, ⟨4, 5⟩, ⟨4, 6⟩, ⟨4, 7⟩, ⟨5, 7⟩,
   ⟨5, 6⟩, ⟨5, 5⟩, ⟨5, 4⟩, ⟨5, 3⟩, ⟨5, 2⟩, ⟨5, 1⟩, ⟨6, 1⟩, ⟨6, 2⟩, ⟨6, 3⟩, ⟨6, 4⟩,
   ⟨6, 5⟩, ⟨6, 6⟩, ⟨6, 7⟩, ⟨7, 7⟩, ⟨7, 6⟩, ⟨7, 5⟩, ⟨7, 4⟩, ⟨7, 3⟩, ⟨7, 2⟩, ⟨7, 1⟩,
   ⟨7, 0⟩, ⟨6, 0⟩, ⟨5, 0⟩, ⟨4, 0⟩, ⟨3, 0⟩, ⟨2, 0⟩, ⟨1, 0⟩, ⟨0, 0⟩, ⟨0, 1⟩, ⟨0, 2⟩,
   ⟨0, 3⟩, ⟨0, 4⟩, ⟨0, 5⟩, ⟨0, 6⟩, ⟨0, 7⟩, ⟨1, 7⟩, ⟨1, 6⟩, ⟨1, 5⟩, ⟨1, 4⟩, ⟨1, 3⟩,
   ⟨1, 2⟩, ⟨1, 1⟩, ⟨2, 1⟩, ⟨2, 2⟩, ⟨2, 3⟩, ⟨2, 4⟩, ⟨2, 5⟩, ⟨2, 6⟩, ⟨2, 7⟩, ⟨3, 7⟩,
   ⟨3, 6⟩, ⟨3, 5⟩, ⟨3, 4⟩, ⟨3, 3⟩]

/-- The `body_state` of a snake of `n` segments lying on the last `n` cells of
`ham_cells`, head at row 3, column 3 heading left, with the food at `rabbit`. -/
def lap_body (n : Nat) (rabbit : coord_t) : body_state :=
  { body := ham_cells.drop (64 - n), dir := DIR_LEFT, rabbit := rabbit }

/-- The `body_state` and the game state agree: the game satisfies the invariant, is
not finished, and has this live body, heading and food coordinate. -/
def BodyRep (c : body_state) (game : snake_game_t) : Prop :=
  GameInv game ∧ game.is_finished = false ∧ live_segments game.snake = c.body ∧
  game.snake.dir = c.dir ∧ game.rabbit = c.rabbit

/-! ## Food placement: the scan -/

theorem count_empty_neighbours_ge (map : snake_game_map_t) (y x : Nat) :
    -1 ≤ count_empty_neighbours map y x := by
  unfold count_empty_neighbours
  dsimp only
  split_ifs <;> omega

theorem count_empty_neighbours_eq_neg_one (map : snake_game_map_t) (y x : Nat) :
    count_empty_neighbours map y x = -1 ↔ map y x ≠ CELL_EMPTY := by
  unfold count_empty_neighbours
  constructor
  · intro h
    by_cases hc : map y x ≠ CELL_EMPTY
    · exact hc
    · rw [if_neg hc] at h
      revert h
      dsimp only
      split_ifs <;> intro h <;> first | omega | exact h.elim
  · intro h
    rw [if_pos h]

theorem ScanInv_congr (map : snake_game_map_t) (st : scan_state) (P Q : Nat → Nat → Prop)
    (h : ∀ y x, P y x ↔ Q y x) (hP : ScanInv map st P) : ScanInv map st Q := by
  have e : P = Q := by
    funext y x
    exact propext (h y x)
  rw [← e]
  exact hP

theorem ScanInv_cell (map : snake_game_map_t) (st : scan_state) (P : Nat → Nat → Prop)
    (y x : Nat) (hP : ScanInv map st P) (hlt : ∀ y1 x1, P y1 x1 → row_major_lt y1 x1 y x) :
    ScanInv map (scan_cell map st y x) (fun y1 x1 => P y1 x1 ∨ (y1 = y ∧ x1 = x)) := by
  unfold scan_cell
  by_cases hgt : count_empty_neighbours map y x > st.2
  · simp only [hgt, if_true]
    right
    have hst : -1 ≤ st.2 := by
      rcases hP with ⟨_, h2, _⟩ | ⟨b, _, _, _, h2, _⟩ <;> omega
    refine ⟨⟨y, x⟩, rfl, Or.inr ⟨rfl, rfl⟩, rfl, by simp only; omega, ?_⟩
    intro y1 x1 h1
    rcases h1 with h1 | ⟨rfl, rfl⟩
    · have hle : count_empty_neighbours map y1 x1 ≤ st.2 := by
        rcases hP with ⟨_, h2, h3⟩ | ⟨b, _, _, _, _, h3⟩
        · rw [h3 y1 x1 h1, h2]
        · exact (h3 y1 x1 h1).1
      simp only
      constructor
      · omega
      · intro _
        omega
    · simp only [le_refl, true_and]
      intro h
      unfold row_major_lt at h
      omega
  · simp only [hgt, if_false]
    rcases hP with ⟨h1, h2, h3⟩ | ⟨b, h1, hb, h2, h0, h3⟩
    · left
      refine ⟨h1, h2, ?_⟩
      intro y1 x1 hc
      rcases hc with hc | ⟨rfl, rfl⟩
      · exact h3 y1 x1 hc
      · have := count_empty_neighbours_ge map y1 x1
        omega
    · right
      refine ⟨b, h1, Or.inl hb, h2, h0, ?_⟩
      intro y1 x1 hc
      rcases hc with hc | ⟨rfl, rfl⟩
      · exact h3 y1 x1 hc
      · constructor
        · omega
        · intro h
          have := hlt b.y b.x hb
          unfold row_major_lt at h this
          omega

theorem ScanInv_row_prefix (map : snake_game_map_t) (y0 : Nat) (st : scan_state)
    (hP : ScanInv map st (fun y x => x < SNAKE_GAME_WIDTH ∧ y < y0)) (n : Nat)
    (hn : n ≤ SNAKE_GAME_WIDTH) :
    ScanInv map ((List.range n).foldl (fun st x => scan_cell map st y0 x) st)
      (fun y x => x < SNAKE_GAME_WIDTH ∧ (y < y0 ∨ (y = y0 ∧ x < n))) := by
  induction n with
  | zero =>
    simp only [List.range_zero, List.foldl_nil]
    apply ScanInv_congr map st _ _ _ hP
    intro y x
    simp
  | succ n ih =>
    rw [List.range_succ, List.foldl_append]
    simp only [List.foldl_cons, List.foldl_nil]
    have h1 := ScanInv_cell map _ _ y0 n (ih (by omega)) (by
      intro y1 x1 h
      unfold row_major_lt
      omega)
    apply ScanInv_congr map _ _ _ _ h1
    intro y x
    constructor
    · intro h
      omega
    · intro h
      omega

theorem ScanInv_row (map : snake_game_map_t) (y0 : Nat) (st : scan_state)
    (hP : ScanInv map st (fun y x => x < SNAKE_GAME_WIDTH ∧ y < y0)) :
    ScanInv map (scan_row map st y0) (fun y x => x < SNAKE_GAME_WIDTH ∧ y < y0 + 1) := by
  have h := ScanInv_row_prefix map y0 st hP SNAKE_GAME_WIDTH (le_refl _)
  unfold scan_row
  apply ScanInv_congr map _ _ _ _ h
  intro y x
  constructor
  · intro h
    omega
  · intro h
    omega

theorem ScanInv_rows (map : snake_game_map_t) (n : Nat) :
    ScanInv map ((List.range n).foldl (fun st y => scan_row map st y) (none, -1))
      (fun y x => x < SNAKE_GAME_WIDTH ∧ y < n) := by
  induction n with
  | zero =>
    left
    simp
  | succ n ih =>
    rw [List.range_succ, List.foldl_append]
    simp only [List.foldl_cons, List.foldl_nil]
    exact ScanInv_row map n _ ih

theorem snake_get_empty_coord_some (map : snake_game_map_t) (b : coord_t)
    (h : snake_get_empty_coord map = some b) :
    b.y < SNAKE_GAME_HEIGHT ∧ b.x < SNAKE_GAME_WIDTH ∧ map b.y b.x = CELL_EMPTY ∧
    (∀ y x, y < SNAKE_GAME_HEIGHT → x < SNAKE_GAME_WIDTH →
      count_empty_neighbours map y x ≤ count_empty_neighbours map b.y b.x) ∧
    (∀ y x, y < SNAKE_GAME_HEIGHT → x < SNAKE_GAME_WIDTH → row_major_lt y x b.y b.x →
      count_empty_neighbours map y x < count_empty_neighbours map b.y b.x) := by
  unfold snake_get_empty_coord at h
  rcases ScanInv_rows map SNAKE_GAME_HEIGHT with ⟨h1, _, _⟩ | ⟨c, h1, hc, h2, h0, h3⟩
  · rw [h1] at h
    exact absurd h (by simp)
  · rw [h1] at h
    cases h
    refine ⟨hc.2, hc.1, ?_, ?_, ?_⟩
    · by_contra hne
      have e := (count_empty_neighbours_eq_neg_one map b.y b.x).2 hne
      omega
    · intro y x hy hx
      rw [h2]
      exact (h3 y x ⟨hx, hy⟩).1
    · intro y x hy hx hlt
      rw [h2]
      exact (h3 y x ⟨hx, hy⟩).2 hlt

theorem snake_get_empty_coord_isSome (map : snake_game_map_t) (h : has_empty map) :
    ∃ b, snake_get_empty_coord map = some b := by
  obtain ⟨y, x, hy, hx, he⟩ := h
  unfold snake_get_empty_coord
  rcases ScanInv_rows map SNAKE_GAME_HEIGHT with ⟨_, _, h3⟩ | ⟨c, h1, _⟩
  · have e := h3 y x ⟨hx, hy⟩
    rw [count_empty_neighbours_eq_neg_one] at e
    exact absurd he e
  · exact ⟨c, h1⟩

/-! ## Claim C4 -/

/-- C4 (food placement): on a map with at least one `CELL_EMPTY` cell in the grid,
`snake_get_empty_coord` returns a written coordinate; it lies in the grid, its cell is
`CELL_EMPTY` (so neither `CELL_SNAKE` nor `CELL_RABBIT`), its `count_empty_neighbours`
is maximal over all empty cells of the grid, and every cell before it in row-major
order has a strictly smaller count. -/
theorem snake_get_empty_coord_spec (map : snake_game_map_t) (h : has_empty map) :
    ∃ b, snake_get_empty_coord map = some b ∧
      b.y < SNAKE_GAME_HEIGHT ∧ b.x < SNAKE_GAME_WIDTH ∧
      MAP_ELEM map b = CELL_EMPTY ∧ MAP_ELEM map b ≠ CELL_SNAKE ∧ MAP_ELEM map b ≠ CELL_RABBIT ∧
      (∀ y x, y < SNAKE_GAME_HEIGHT → x < SNAKE_GAME_WIDTH → map y x = CELL_EMPTY →
        count_empty_neighbours map y x ≤ count_empty_neighbours map b.y b.x) ∧
      (∀ y x, y < SNAKE_GAME_HEIGHT → x < SNAKE_GAME_WIDTH → row_major_lt y x b.y b.x →
        count_empty_neighbours map y x < count_empty_neighbours map b.y b.x) := by
  obtain ⟨b, hb⟩ := snake_get_empty_coord_isSome map h
  obtain ⟨h1, h2, h3, h4, h5⟩ := snake_get_empty_coord_some map b hb
  refine ⟨b, hb, h1, h2, h3, ?_, ?_, ?_, h5⟩
  · unfold MAP_ELEM
    rw [h3]
    decide
  · unfold MAP_ELEM
    rw [h3]
    decide
  · intro y x hy hx _
    exact h4 y x hy hx

theorem snake_get_empty_coord_spec_witness :
    has_empty one_snake_map ∧
    ∃ b, snake_get_empty_coord one_snake_map = some b ∧
      b.y < SNAKE_GAME_HEIGHT ∧ b.x < SNAKE_GAME_WIDTH ∧
      MAP_ELEM one_snake_map b = CELL_EMPTY ∧ MAP_ELEM one_snake_map b ≠ CELL_SNAKE ∧
      MAP_ELEM one_snake_map b ≠ CELL_RABBIT ∧
      (∀ y x, y < SNAKE_GAME_HEIGHT → x < SNAKE_GAME_WIDTH → one_snake_map y x = CELL_EMPTY →
        count_empty_neighbours one_snake_map y x ≤ count_empty_neighbours one_snake_map b.y b.x) ∧
      (∀ y x, y < SNAKE_GAME_HEIGHT → x < SNAKE_GAME_WIDTH → row_major_lt y x b.y b.x →
        count_empty_neighbours one_snake_map y x <
          count_empty_neighbours one_snake_map b.y b.x) :=
  ⟨⟨0, 0, by decide, by decide, by decide⟩,
   snake_get_empty_coord_spec one_snake_map ⟨0, 0, by decide, by decide, by decide⟩⟩

/-! ## The four paths of `snake_game_update` -/

theorem update_finished (game : snake_game_t) (d : snake_dir_t)
    (hf : game.is_finished = true) : snake_game_update game d = some game := by
  unfold snake_game_update
  simp [hf]

theorem update_rabbit (game : snake_game_t) (d : snake_dir_t) (r : coord_t)
    (hf : game.is_finished = false)
    (hr : (new_head_of game d).x = game.rabbit.x ∧ (new_head_of game d).y = game.rabbit.y)
    (he : snake_get_empty_coord game.map = some r) :
    snake_game_update game d = some
      { is_finished := false
        score := (game.score + 1) % UINT_MOD
        map := MAP_SET (MAP_SET game.map r CELL_RABBIT) (new_head_of game d) CELL_SNAKE
        snake := snake_add_segment (turned_snake game d) (new_head_of game d)
        rabbit := r } := by
  unfold new_head_of turned_snake at hr
  unfold snake_game_update
  simp only [hf, Bool.false_eq_true, if_false, hr, and_self, if_true, he]
  rfl

theorem update_collision (game : snake_game_t) (d : snake_dir_t)
    (hf : game.is_finished = false)
    (hr : ¬ ((new_head_of game d).x = game.rabbit.x ∧ (new_head_of game d).y = game.rabbit.y))
    (hc : MAP_ELEM (MAP_SET game.map (game.snake.segments game.snake.tail) CELL_EMPTY)
      (new_head_of game d) ≠ CELL_EMPTY) :
    snake_game_update game d = some
      { game with
        is_finished := true
        map := MAP_SET game.map (game.snake.segments game.snake.tail) CELL_EMPTY
        snake := turned_snake game d } := by
  unfold new_head_of turned_snake at hr hc
  unfold snake_game_update
  simp only [hf, Bool.false_eq_true, if_false, hr, hc, ne_eq, not_false_eq_true, if_true]
  rfl

theorem update_move (game : snake_game_t) (d : snake_dir_t)
    (hf : game.is_finished = false)
    (hr : ¬ ((new_head_of game d).x = game.rabbit.x ∧ (new_head_of game d).y = game.rabbit.y))
    (hc : MAP_ELEM (MAP_SET game.map (game.snake.segments game.snake.tail) CELL_EMPTY)
      (new_head_of game d) = CELL_EMPTY) :
    snake_game_update game d = some
      { game with
        map := MAP_SET (MAP_SET game.map (game.snake.segments game.snake.tail) CELL_EMPTY)
          (new_head_of game d) CELL_SNAKE
        snake := snake_move (turned_snake game d) (new_head_of game d) } := by
  unfold new_head_of turned_snake at hr hc
  unfold snake_game_update
  simp only [hf, Bool.false_eq_true, if_false, hr, hc, ne_eq, not_true_eq_false]
  rfl

theorem update_total (game : snake_game_t) (d : snake_dir_t) (he : has_empty game.map) :
    ∃ game1, snake_game_update game d = some game1 := by
  cases hf : game.is_finished
  · by_cases hr : (new_head_of game d).x = game.rabbit.x ∧
        (new_head_of game d).y = game.rabbit.y
    · obtain ⟨r, hr1⟩ := snake_get_empty_coord_isSome game.map he
      exact ⟨_, update_rabbit game d r hf hr hr1⟩
    · by_cases hc : MAP_ELEM (MAP_SET game.map (game.snake.segments game.snake.tail)
          CELL_EMPTY) (new_head_of game d) = CELL_EMPTY
      · exact ⟨_, update_move game d hf hr hc⟩
      · exact ⟨_, update_collision game d hf hr hc⟩
  · exact ⟨_, update_finished game d hf⟩

theorem coord_eq_iff (a b : coord_t) : a = b ↔ a.x = b.x ∧ a.y = b.y := by
  cases a
  cases b
  simp only [coord_t.mk.injEq]
  constructor
  · rintro ⟨h1, h2⟩
    exact ⟨h2, h1⟩
  · rintro ⟨h1, h2⟩
    exact ⟨h2, h1⟩

theorem run_finished (game : snake_game_t) (ds : List snake_dir_t)
    (hf : game.is_finished = true) : snake_game_run game ds = some game := by
  induction ds with
  | nil => rfl
  | cons d ds ih =>
    unfold snake_game_run
    rw [update_finished game d hf]
    exact ih

/-! ## Claim C3 -/

/-- C3 (self-collision is terminal and freezes the body): in an unfinished game whose
new head is not the food cell and whose new head cell is still not `CELL_EMPTY` once
the tail cell has been cleared, `snake_game_update` returns a state with `is_finished`
true and the same `segments`, `head`, `tail` and `score`; and on every state with
`is_finished` true one update, and any sequence of updates, returns the state as it
is. -/
theorem self_collision_is_terminal (game : snake_game_t) (d : snake_dir_t) :
    (game.is_finished = false →
      new_head_of game d ≠ game.rabbit →
      MAP_ELEM (MAP_SET game.map (game.snake.segments game.snake.tail) CELL_EMPTY)
        (new_head_of game d) ≠ CELL_EMPTY →
      ∃ game1, snake_game_update game d = some game1 ∧ game1.is_finished = true ∧
        game1.snake.segments = game.snake.segments ∧ game1.snake.head = game.snake.head ∧
        game1.snake.tail = game.snake.tail ∧ game1.score = game.score) ∧
    (game.is_finished = true →
      snake_game_update game d = some game ∧
      ∀ ds, snake_game_run game ds = some game) := by
  constructor
  · intro hf hr hc
    rw [Ne, coord_eq_iff] at hr
    exact ⟨_, update_collision game d hf hr hc, rfl, rfl, rfl, rfl, rfl⟩
  · intro hf
    exact ⟨update_finished game d hf, fun ds => run_finished game ds hf⟩

theorem self_collision_is_terminal_witness :
    ((game_after loop_dirs).is_finished = false ∧
      new_head_of (game_after loop_dirs) DIR_DOWN ≠ (game_after loop_dirs).rabbit ∧
      MAP_ELEM (MAP_SET (game_after loop_dirs).map
        ((game_after loop_dirs).snake.segments (game_after loop_dirs).snake.tail) CELL_EMPTY)
        (new_head_of (game_after loop_dirs) DIR_DOWN) ≠ CELL_EMPTY ∧
      ∃ game1, snake_game_update (game_after loop_dirs) DIR_DOWN = some game1 ∧
        game1.is_finished = true ∧
        game1.snake.segments = (game_after loop_dirs).snake.segments ∧
        game1.snake.head = (game_after loop_dirs).snake.head ∧
        game1.snake.tail = (game_after loop_dirs).snake.tail ∧
        game1.score = (game_after loop_dirs).score) ∧
    ({ start_game with is_finished := true }.is_finished = true ∧
      snake_game_update { start_game with is_finished := true } DIR_LEFT =
        some { start_game with is_finished := true } ∧
      ∀ ds, snake_game_run { start_game with is_finished := true } ds =
        some { start_game with is_finished := true }) := by
  have h : (game_after loop_dirs).is_finished = false ∧
      new_head_of (game_after loop_dirs) DIR_DOWN ≠ (game_after loop_dirs).rabbit ∧
      MAP_ELEM (MAP_SET (game_after loop_dirs).map
        ((game_after loop_dirs).snake.segments (game_after loop_dirs).snake.tail) CELL_EMPTY)
        (new_head_of (game_after loop_dirs) DIR_DOWN) ≠ CELL_EMPTY := by decide!
  exact ⟨⟨h.1, h.2.1, h.2.2,
      (self_collision_is_terminal (game_after loop_dirs) DIR_DOWN).1 h.1 h.2.1 h.2.2⟩,
    rfl, (self_collision_is_terminal { start_game with is_finished := true } DIR_LEFT).2 rfl⟩

/-! ## Claim C5 -/

theorem opposite_dir_toInt (a b : snake_dir_t) :
    a.toInt = - b.toInt ↔ a = opposite_dir b := by
  cases a <;> cases b <;> simp [snake_dir_t.toInt, opposite_dir]

/-- C5 (heading resolution): for every snake, in particular one whose heading is
LEFT, RIGHT, UP or DOWN, `snake_choose_dir` returns the current heading when the
request is `DIR_UNKNOWN` or the exact opposite of the heading, and the request
otherwise; and after one `snake_game_update` with the opposite direction requested
the stored heading is what it was, the call having a result whenever the map has an
empty cell. -/
theorem snake_choose_dir_spec (game : snake_game_t) (r : snake_dir_t) :
    (r = DIR_UNKNOWN ∨ r = opposite_dir game.snake.dir →
      snake_choose_dir game.snake r = game.snake.dir) ∧
    (¬ (r = DIR_UNKNOWN ∨ r = opposite_dir game.snake.dir) →
      snake_choose_dir game.snake r = r) ∧
    (∀ game1, snake_game_update game (opposite_dir game.snake.dir) = some game1 →
      game1.snake.dir = game.snake.dir) ∧
    (has_empty game.map →
      ∃ game1, snake_game_update game (opposite_dir game.snake.dir) = some game1 ∧
        game1.snake.dir = game.snake.dir) := by
  have hch : ∀ q, (q = DIR_UNKNOWN ∨ q = opposite_dir game.snake.dir) →
      snake_choose_dir game.snake q = game.snake.dir := by
    intro q hq
    rw [← opposite_dir_toInt] at hq
    unfold snake_choose_dir
    rw [if_pos hq]
  have hq := hch (opposite_dir game.snake.dir) (Or.inr rfl)
  have hdir : ∀ game1, snake_game_update game (opposite_dir game.snake.dir) = some game1 →
      game1.snake.dir = game.snake.dir := by
    intro game1 hu
    cases hf : game.is_finished
    · by_cases hr : (new_head_of game (opposite_dir game.snake.dir)).x = game.rabbit.x ∧
          (new_head_of game (opposite_dir game.snake.dir)).y = game.rabbit.y
      · cases he : snake_get_empty_coord game.map with
        | none =>
          unfold new_head_of turned_snake at hr
          unfold snake_game_update at hu
          simp only [hf, Bool.false_eq_true, if_false, hr, and_self, if_true, he] at hu
          exact absurd hu (by simp)
        | some b =>
          rw [update_rabbit game _ b hf hr he] at hu
          cases hu
          exact hq
      · by_cases hc : MAP_ELEM (MAP_SET game.map (game.snake.segments game.snake.tail)
            CELL_EMPTY) (new_head_of game (opposite_dir game.snake.dir)) = CELL_EMPTY
        · rw [update_move game _ hf hr hc] at hu
          cases hu
          exact hq
        · rw [update_collision game _ hf hr hc] at hu
          cases hu
          exact hq
    · rw [update_finished game _ hf] at hu
      cases hu
      rfl
  refine ⟨hch r, ?_, hdir, ?_⟩
  · intro h
    rw [← opposite_dir_toInt] at h
    unfold snake_choose_dir
    rw [if_neg h]
  · intro he
    obtain ⟨game1, h1⟩ := update_total game (opposite_dir game.snake.dir) he
    exact ⟨game1, h1, hdir game1 h1⟩

theorem snake_choose_dir_spec_witness :
    snake_choose_dir start_game.snake DIR_DOWN = DIR_UP ∧
    snake_choose_dir start_game.snake DIR_LEFT = DIR_LEFT ∧
    ∃ game1, snake_game_update start_game DIR_DOWN = some game1 ∧
      game1.snake.dir = DIR_UP :=
  ⟨(snake_choose_dir_spec start_game DIR_DOWN).1 (Or.inr rfl),
   (snake_choose_dir_spec start_game DIR_LEFT).2.1 (by decide),
   (snake_choose_dir_spec start_game DIR_DOWN).2.2.2
     ⟨0, 0, by decide, by decide, by decide⟩⟩

/-! ## Clearing the map and the dependence of the scan on the grid only -/

theorem clear_row_apply (m : snake_game_map_t) (y n y1 x1 : Nat) :
    ((List.range n).foldl (fun m x => MAP_SET m ⟨y, x⟩ CELL_EMPTY) m) y1 x1 =
      if y1 = y ∧ x1 < n then CELL_EMPTY else m y1 x1 := by
  induction n with
  | zero => simp
  | succ n ih =>
    rw [List.range_succ, List.foldl_append]
    simp only [List.foldl_cons, List.foldl_nil, MAP_SET]
    rw [ih]
    by_cases h1 : y1 = y ∧ x1 = n
    · rw [if_pos h1, if_pos ⟨h1.1, by omega⟩]
    · rw [if_neg h1]
      by_cases h2 : y1 = y ∧ x1 < n
      · rw [if_pos h2, if_pos ⟨h2.1, by omega⟩]
      · rw [if_neg h2, if_neg (by omega)]

theorem clear_rows_apply (m : snake_game_map_t) (n y1 x1 : Nat) :
    ((List.range n).foldl (fun m y => (List.range SNAKE_GAME_WIDTH).foldl
      (fun m x => MAP_SET m ⟨y, x⟩ CELL_EMPTY) m) m) y1 x1 =
      if y1 < n ∧ x1 < SNAKE_GAME_WIDTH then CELL_EMPTY else m y1 x1 := by
  induction n with
  | zero => simp
  | succ n ih =>
    rw [List.range_succ, List.foldl_append]
    simp only [List.foldl_cons, List.foldl_nil]
    rw [clear_row_apply, ih]
    by_cases h1 : y1 = n ∧ x1 < SNAKE_GAME_WIDTH
    · rw [if_pos h1, if_pos ⟨by omega, h1.2⟩]
    · rw [if_neg h1]
      by_cases h2 : y1 < n ∧ x1 < SNAKE_GAME_WIDTH
      · rw [if_pos h2, if_pos ⟨by omega, h2.2⟩]
      · rw [if_neg h2, if_neg (by omega)]

theorem snake_clear_game_map_apply (m : snake_game_map_t) (y x : Nat)
    (hy : y < SNAKE_GAME_HEIGHT) (hx : x < SNAKE_GAME_WIDTH) :
    snake_clear_game_map m y x = CELL_EMPTY := by
  unfold snake_clear_game_map
  rw [clear_rows_apply, if_pos ⟨hy, hx⟩]

theorem count_empty_neighbours_congr (m1 m2 : snake_game_map_t)
    (h : ∀ y x, y < SNAKE_GAME_HEIGHT → x < SNAKE_GAME_WIDTH → m1 y x = m2 y x)
    (y x : Nat) (hy : y < SNAKE_GAME_HEIGHT) (hx : x < SNAKE_GAME_WIDTH) :
    count_empty_neighbours m1 y x = count_empty_neighbours m2 y x := by
  have h0 := h y x hy hx
  have h1 : y > 0 → m1 (y - 1) x = m2 (y - 1) x := fun _ => h _ _ (by omega) hx
  have h2 : y < SNAKE_GAME_HEIGHT - 1 → m1 (y + 1) x = m2 (y + 1) x :=
    fun _ => h _ _ (by omega) hx
  have h3 : x > 0 → m1 y (x - 1) = m2 y (x - 1) := fun _ => h _ _ hy (by omega)
  have h4 : x < SNAKE_GAME_WIDTH - 1 → m1 y (x + 1) = m2 y (x + 1) :=
    fun _ => h _ _ hy (by omega)
  unfold count_empty_neighbours
  rw [h0]
  dsimp only
  by_cases g1 : y > 0 <;> by_cases g2 : y < SNAKE_GAME_HEIGHT - 1 <;>
    by_cases g3 : x > 0 <;> by_cases g4 : x < SNAKE_GAME_WIDTH - 1 <;>
    simp only [g1, g2, g3, g4, if_true, if_false] <;>
    (try rw [h1 g1]) <;> (try rw [h2 g2]) <;> (try rw [h3 g3]) <;> (try rw [h4 g4])

theorem snake_get_empty_coord_congr (m1 m2 : snake_game_map_t)
    (h : ∀ y x, y < SNAKE_GAME_HEIGHT → x < SNAKE_GAME_WIDTH → m1 y x = m2 y x) :
    snake_get_empty_coord m1 = snake_get_empty_coord m2 := by
  have hrow : ∀ (st : scan_state), ∀ y ∈ List.range SNAKE_GAME_HEIGHT,
      scan_row m1 st y = scan_row m2 st y := by
    intro st y hy
    unfold scan_row
    refine List.foldl_ext _ _ st ?_
    intro st1 x hx
    unfold scan_cell
    rw [count_empty_neighbours_congr m1 m2 h y x (List.mem_range.1 hy) (List.mem_range.1 hx)]
  unfold snake_get_empty_coord
  rw [List.foldl_ext (fun st y => scan_row m1 st y) (fun st y => scan_row m2 st y) _ hrow]

theorem snake_get_empty_coord_one_snake_map :
    snake_get_empty_coord one_snake_map = some ⟨1, 1⟩ := by decide!

/-! ## Claim C8 -/

/-- C8 (initial state): whatever the struct held before, `snake_game_init` returns a
state whose body is the single segment at row 3, column 3 with `head = tail = 0`,
heading `DIR_UP`, score 1, not finished; the food coordinate is what
`snake_get_empty_coord` chooses on the cleared grid with that one snake cell, which
is row 1, column 1; and in the grid the map has `CELL_SNAKE` exactly at (3, 3),
`CELL_RABBIT` exactly at the food coordinate and `CELL_EMPTY` everywhere else. -/
theorem snake_game_init_spec (game0 : snake_game_t) :
    ∃ game, snake_game_init game0 = some game ∧
      live_segments game.snake = [⟨3, 3⟩] ∧
      game.snake.head = 0 ∧ game.snake.tail = 0 ∧ game.snake.segments 0 = ⟨3, 3⟩ ∧
      game.snake.dir = DIR_UP ∧ game.score = 1 ∧ game.is_finished = false ∧
      snake_get_empty_coord
        (MAP_SET (snake_clear_game_map game0.map) ⟨3, 3⟩ CELL_SNAKE) = some game.rabbit ∧
      game.rabbit = ⟨1, 1⟩ ∧
      ∀ y x, y < SNAKE_GAME_HEIGHT → x < SNAKE_GAME_WIDTH →
        game.map y x =
          if y = 3 ∧ x = 3 then CELL_SNAKE
          else if y = game.rabbit.y ∧ x = game.rabbit.x then CELL_RABBIT
          else CELL_EMPTY := by
  have hmap : ∀ y x, y < SNAKE_GAME_HEIGHT → x < SNAKE_GAME_WIDTH →
      MAP_SET (snake_clear_game_map game0.map) ⟨3, 3⟩ CELL_SNAKE y x = one_snake_map y x := by
    intro y x hy hx
    unfold MAP_SET one_snake_map
    rw [snake_clear_game_map_apply _ y x hy hx]
  have hr : snake_get_empty_coord
      (MAP_SET (snake_clear_game_map game0.map) ⟨3, 3⟩ CELL_SNAKE) = some ⟨1, 1⟩ := by
    rw [snake_get_empty_coord_congr _ _ hmap]
    exact snake_get_empty_coord_one_snake_map
  refine ⟨{ is_finished := false
            score := 1
            map := MAP_SET (MAP_SET (snake_clear_game_map game0.map) ⟨3, 3⟩ CELL_SNAKE)
              ⟨1, 1⟩ CELL_RABBIT
            snake := snake_init game0.snake ⟨3, 3⟩
            rabbit := ⟨1, 1⟩ }, ?_, ?_, rfl, rfl, rfl, rfl, rfl, rfl, hr, rfl, ?_⟩
  · unfold snake_game_init
    simp only [hr]
  · simp [live_segments, live_length, snake_init, seg_set, MAX_SNAKE_LENGTH, List.range_succ]
  · intro y x hy hx
    simp only [MAP_SET]
    rw [snake_clear_game_map_apply _ y x hy hx]
    by_cases h1 : y = 1 ∧ x = 1
    · rw [if_pos h1, if_neg (by omega), if_pos h1]
    · rw [if_neg h1, if_neg h1]

/-! ## Movement -/

theorem snake_next_head_pos_eq (s : snake_t) (y x : Nat)
    (hy : y < SNAKE_GAME_HEIGHT) (hx : x < SNAKE_GAME_WIDTH)
    (hs : s.segments s.head = ⟨y, x⟩) :
    (s.dir = DIR_LEFT → snake_next_head_pos s =
      ⟨y, (x + SNAKE_GAME_WIDTH - 1) % SNAKE_GAME_WIDTH⟩) ∧
    (s.dir = DIR_RIGHT → snake_next_head_pos s = ⟨y, (x + 1) % SNAKE_GAME_WIDTH⟩) ∧
    (s.dir = DIR_UP → snake_next_head_pos s =
      ⟨(y + SNAKE_GAME_HEIGHT - 1) % SNAKE_GAME_HEIGHT, x⟩) ∧
    (s.dir = DIR_DOWN → snake_next_head_pos s = ⟨(y + 1) % SNAKE_GAME_HEIGHT, x⟩) ∧
    (s.dir = DIR_UNKNOWN → snake_next_head_pos s = ⟨y, x⟩) := by
  unfold SNAKE_GAME_HEIGHT at hy
  unfold SNAKE_GAME_WIDTH at hx
  have e1 : (x + 8 - 1) % 65536 = x + 8 - 1 := Nat.mod_eq_of_lt (by omega)
  have e2 : (x + 1) % 65536 = x + 1 := Nat.mod_eq_of_lt (by omega)
  have e3 : (y + 8 - 1) % 65536 = y + 8 - 1 := Nat.mod_eq_of_lt (by omega)
  have e4 : (y + 1) % 65536 = y + 1 := Nat.mod_eq_of_lt (by omega)
  refine ⟨?_, ?_, ?_, ?_, ?_⟩ <;> intro hd <;> unfold snake_next_head_pos <;>
    simp only [hd, hs, SNAKE_GAME_WIDTH, SNAKE_GAME_HEIGHT, UINT_MOD, e1, e2, e3, e4]

theorem snake_next_head_pos_in_grid (s : snake_t)
    (hy : (s.segments s.head).y < SNAKE_GAME_HEIGHT)
    (hx : (s.segments s.head).x < SNAKE_GAME_WIDTH) :
    (snake_next_head_pos s).y < SNAKE_GAME_HEIGHT ∧
    (snake_next_head_pos s).x < SNAKE_GAME_WIDTH := by
  unfold snake_next_head_pos
  unfold SNAKE_GAME_HEIGHT SNAKE_GAME_WIDTH UINT_MOD at *
  cases s.dir <;> simp only <;> omega

theorem live_segments_single (s : snake_t) (h : s.head = s.tail)
    (ht : s.tail < MAX_SNAKE_LENGTH) : live_segments s = [s.segments s.tail] := by
  unfold MAX_SNAKE_LENGTH at ht
  have e : (s.tail + 64 - s.tail) % 64 + 1 = 1 := by omega
  have e0 : (s.tail + 0) % 64 = s.tail := by omega
  simp only [live_segments, live_length, h, MAX_SNAKE_LENGTH, e, List.range_succ,
    List.range_zero, List.nil_append, List.map_cons, List.map_nil, e0]

theorem cell_cases (c : cell_t) : c = CELL_EMPTY ∨ c = CELL_SNAKE ∨ c = CELL_RABBIT := by
  cases c <;> simp

theorem has_empty_of_single (game : snake_game_t) (c : coord_t)
    (hc : Consistent game) (hl : live_segments game.snake = [c]) : has_empty game.map := by
  obtain ⟨_, ⟨_, hs⟩, _, _, hr⟩ := hc
  by_contra hne
  have key : ∀ k, k < 3 → c = ⟨0, k⟩ ∨ game.rabbit = ⟨0, k⟩ := by
    intro k hk
    have hk8 : k < SNAKE_GAME_WIDTH := by
      unfold SNAKE_GAME_WIDTH
      omega
    have h0 : 0 < SNAKE_GAME_HEIGHT := by decide
    rcases cell_cases (game.map 0 k) with h | h | h
    · exact absurd ⟨0, k, h0, hk8, h⟩ hne
    · have := (hs 0 h0 k hk8).1 h
      rw [hl, List.mem_singleton] at this
      exact Or.inl this.symm
    · exact Or.inr ((hr 0 h0 k hk8).1 h).symm
  rcases key 0 (by omega) with h0 | h0 <;> rcases key 1 (by omega) with h1 | h1 <;>
    rcases key 2 (by omega) with h2 | h2 <;> simp_all

/-! ## Claim C7 -/

/-- C7 (toroidal movement): for a head at `(y, x)` inside the grid,
`snake_next_head_pos` returns `(y, (x+W-1) mod W)` for LEFT, `(y, (x+1) mod W)` for
RIGHT, `((y+H-1) mod H, x)` for UP and `((y+1) mod H, x)` for DOWN, a cell of the grid;
and in an unfinished game that satisfies the game invariant and whose snake is the
single segment `(y, x)` heading UP, one `snake_game_update` with `DIR_UNKNOWN` puts
the head at `((y+H-1) mod H, x)`, which is (2, 3) from (3, 3) and (7, 3) from (0, 3),
and keeps the score unless that cell is the food cell. -/
theorem toroidal_movement (game : snake_game_t) (y x : Nat)
    (hy : y < SNAKE_GAME_HEIGHT) (hx : x < SNAKE_GAME_WIDTH)
    (hs : game.snake.segments game.snake.head = ⟨y, x⟩) :
    (game.snake.dir = DIR_LEFT → snake_next_head_pos game.snake =
      ⟨y, (x + SNAKE_GAME_WIDTH - 1) % SNAKE_GAME_WIDTH⟩) ∧
    (game.snake.dir = DIR_RIGHT → snake_next_head_pos game.snake =
      ⟨y, (x + 1) % SNAKE_GAME_WIDTH⟩) ∧
    (game.snake.dir = DIR_UP → snake_next_head_pos game.snake =
      ⟨(y + SNAKE_GAME_HEIGHT - 1) % SNAKE_GAME_HEIGHT, x⟩) ∧
    (game.snake.dir = DIR_DOWN → snake_next_head_pos game.snake =
      ⟨(y + 1) % SNAKE_GAME_HEIGHT, x⟩) ∧
    ((snake_next_head_pos game.snake).y < SNAKE_GAME_HEIGHT ∧
      (snake_next_head_pos game.snake).x < SNAKE_GAME_WIDTH) ∧
    (GameInv game → game.is_finished = false → game.snake.head = game.snake.tail →
      game.snake.dir = DIR_UP →
      ∃ game1, snake_game_update game DIR_UNKNOWN = some game1 ∧
        game1.snake.segments game1.snake.head =
          ⟨(y + SNAKE_GAME_HEIGHT - 1) % SNAKE_GAME_HEIGHT, x⟩ ∧
        (y = 3 → x = 3 → game1.snake.segments game1.snake.head = ⟨2, 3⟩) ∧
        (y = 0 → x = 3 → game1.snake.segments game1.snake.head = ⟨7, 3⟩) ∧
        (game.rabbit ≠ ⟨(y + SNAKE_GAME_HEIGHT - 1) % SNAKE_GAME_HEIGHT, x⟩ →
          game1.score = game.score)) := by
  obtain ⟨m1, m2, m3, m4, _⟩ := snake_next_head_pos_eq game.snake y x hy hx hs
  refine ⟨m1, m2, m3, m4, ?_, ?_⟩
  · apply snake_next_head_pos_in_grid
    · rw [hs]
      exact hy
    · rw [hs]
      exact hx
  · intro hinv hf hht hd
    obtain ⟨ht, _, _, hcons⟩ := hinv
    have hc := hcons hf
    have hl : live_segments game.snake = [⟨y, x⟩] := by
      rw [live_segments_single game.snake hht ht, ← hht, hs]
    have hnh : new_head_of game DIR_UNKNOWN =
        ⟨(y + SNAKE_GAME_HEIGHT - 1) % SNAKE_GAME_HEIGHT, x⟩ := by
      unfold new_head_of turned_snake
      have hdir : snake_choose_dir game.snake DIR_UNKNOWN = DIR_UP := by
        unfold snake_choose_dir
        simp [hd]
      rw [hdir]
      exact (snake_next_head_pos_eq { game.snake with dir := DIR_UP } y x hy hx hs).2.2.1 rfl
    have hinst : ∀ c : coord_t, c = ⟨(y + SNAKE_GAME_HEIGHT - 1) % SNAKE_GAME_HEIGHT, x⟩ →
        (y = 3 → x = 3 → c = ⟨2, 3⟩) ∧ (y = 0 → x = 3 → c = ⟨7, 3⟩) := by
      intro c hc1
      constructor
      · intro h1 h2
        rw [hc1, h1, h2]
        rfl
      · intro h1 h2
        rw [hc1, h1, h2]
        rfl
    by_cases hr : (new_head_of game DIR_UNKNOWN).x = game.rabbit.x ∧
        (new_head_of game DIR_UNKNOWN).y = game.rabbit.y
    · obtain ⟨b, hb⟩ := snake_get_empty_coord_isSome game.map
        (has_empty_of_single game _ hc hl)
      have hhead : (snake_add_segment (turned_snake game DIR_UNKNOWN)
          (new_head_of game DIR_UNKNOWN)).segments
          (snake_add_segment (turned_snake game DIR_UNKNOWN)
            (new_head_of game DIR_UNKNOWN)).head =
          ⟨(y + SNAKE_GAME_HEIGHT - 1) % SNAKE_GAME_HEIGHT, x⟩ := by
        simp only [snake_add_segment, seg_set, if_true]
        exact hnh
      refine ⟨_, update_rabbit game _ b hf hr hb, hhead, (hinst _ hhead).1,
        (hinst _ hhead).2, ?_⟩
      intro hne
      rw [← coord_eq_iff, hnh] at hr
      exact absurd hr.symm hne
    · have hin : (⟨(y + SNAKE_GAME_HEIGHT - 1) % SNAKE_GAME_HEIGHT, x⟩ : coord_t) ∉
          live_segments game.snake := by
        rw [hl, List.mem_singleton, coord_eq_iff]
        unfold SNAKE_GAME_HEIGHT at *
        simp only
        omega
      have hy1 : (y + SNAKE_GAME_HEIGHT - 1) % SNAKE_GAME_HEIGHT < SNAKE_GAME_HEIGHT := by
        unfold SNAKE_GAME_HEIGHT
        omega
      have hcell : game.map ((y + SNAKE_GAME_HEIGHT - 1) % SNAKE_GAME_HEIGHT) x =
          CELL_EMPTY := by
        rcases cell_cases (game.map ((y + SNAKE_GAME_HEIGHT - 1) % SNAKE_GAME_HEIGHT) x)
          with h | h | h
        · exact h
        · exact absurd ((hc.2.1.2 _ hy1 x hx).1 h) hin
        · have := (hc.2.2.2.2 _ hy1 x hx).1 h
          rw [← coord_eq_iff, hnh] at hr
          exact absurd this hr
      have hcl : MAP_ELEM (MAP_SET game.map (game.snake.segments game.snake.tail) CELL_EMPTY)
          (new_head_of game DIR_UNKNOWN) = CELL_EMPTY := by
        rw [hnh]
        unfold MAP_ELEM MAP_SET
        simp only
        split_ifs
        · rfl
        · exact hcell
      have hhead : (snake_move (turned_snake game DIR_UNKNOWN)
          (new_head_of game DIR_UNKNOWN)).segments
          (snake_move (turned_snake game DIR_UNKNOWN)
            (new_head_of game DIR_UNKNOWN)).head =
          ⟨(y + SNAKE_GAME_HEIGHT - 1) % SNAKE_GAME_HEIGHT, x⟩ := by
        simp only [snake_move, snake_pop_segment, snake_add_segment, seg_set, if_true]
        exact hnh
      exact ⟨_, update_move game _ hf hr hcl, hhead, (hinst _ hhead).1, (hinst _ hhead).2,
        fun _ => rfl⟩

theorem start_game_inv : GameInv start_game := by
  refine ⟨by decide, by decide, by decide, fun _ => ⟨by decide, ⟨by decide, ?_⟩, ?_⟩⟩
  · decide
  · unfold OneRabbit
    decide

theorem toroidal_movement_witness :
    ((3 : Nat) < SNAKE_GAME_HEIGHT ∧ (3 : Nat) < SNAKE_GAME_WIDTH ∧
      start_game.snake.segments start_game.snake.head = ⟨3, 3⟩ ∧
      snake_next_head_pos start_game.snake = ⟨2, 3⟩) ∧
    (GameInv start_game ∧
      ∃ game1, snake_game_update start_game DIR_UNKNOWN = some game1 ∧
        game1.snake.segments game1.snake.head = ⟨2, 3⟩ ∧ game1.score = start_game.score) :=
  ⟨⟨by decide, by decide, rfl,
    (toroidal_movement start_game 3 3 (by decide) (by decide) rfl).2.2.1 rfl⟩,
   start_game_inv,
   match (toroidal_movement start_game 3 3 (by decide) (by decide) rfl).2.2.2.2.2
      start_game_inv rfl rfl rfl with
   | ⟨game1, h1, _, h2, _, h3⟩ => ⟨game1, h1, h2 rfl rfl, h3 (by decide)⟩⟩

/-! ## The live body under `snake_add_segment` and `snake_move` -/

theorem live_length_pos (s : snake_t) : 1 ≤ live_length s := by
  unfold live_length
  omega

theorem length_live_segments (s : snake_t) :
    (live_segments s).length = live_length s := by
  simp [live_segments]

theorem live_segments_add (s : snake_t) (c : coord_t)
    (ht : s.tail < MAX_SNAKE_LENGTH) (hh : s.head < MAX_SNAKE_LENGTH)
    (hl : live_length s < MAX_SNAKE_LENGTH) :
    live_segments (snake_add_segment s c) = live_segments s ++ [c] ∧
    live_length (snake_add_segment s c) = live_length s + 1 ∧
    (snake_add_segment s c).head < MAX_SNAKE_LENGTH ∧
    (snake_add_segment s c).tail = s.tail := by
  unfold live_length MAX_SNAKE_LENGTH at hl
  unfold MAX_SNAKE_LENGTH at ht hh
  have hlen : live_length (snake_add_segment s c) = live_length s + 1 := by
    simp only [live_length, snake_add_segment, MAX_SNAKE_LENGTH, UINT_MOD]
    omega
  refine ⟨?_, hlen, ?_, rfl⟩
  · unfold live_segments
    rw [hlen, List.range_succ, List.map_append, List.map_singleton]
    congr 1
    · apply List.map_congr_left
      intro i hi
      rw [List.mem_range] at hi
      unfold live_length MAX_SNAKE_LENGTH at hi
      simp only [snake_add_segment, seg_set, MAX_SNAKE_LENGTH, UINT_MOD]
      rw [if_neg (by omega)]
    · simp only [snake_add_segment, seg_set, live_length, MAX_SNAKE_LENGTH, UINT_MOD]
      rw [if_pos (by omega)]
  · simp only [snake_add_segment, MAX_SNAKE_LENGTH, UINT_MOD]
    omega

theorem live_segments_move (s : snake_t) (c : coord_t)
    (ht : s.tail < MAX_SNAKE_LENGTH) (hh : s.head < MAX_SNAKE_LENGTH)
    (hl : live_length s < MAX_SNAKE_LENGTH) :
    live_segments (snake_move s c) = (live_segments s).tail ++ [c] ∧
    live_length (snake_move s c) = live_length s ∧
    (snake_move s c).head < MAX_SNAKE_LENGTH ∧
    (snake_move s c).tail < MAX_SNAKE_LENGTH := by
  unfold live_length MAX_SNAKE_LENGTH at hl
  unfold MAX_SNAKE_LENGTH at ht hh
  have hlen : live_length (snake_move s c) = live_length s := by
    simp only [live_length, snake_move, snake_pop_segment, snake_add_segment,
      MAX_SNAKE_LENGTH, UINT_MOD]
    omega
  obtain ⟨n, hn⟩ : ∃ n, live_length s = n + 1 := ⟨live_length s - 1, by
    have := live_length_pos s
    omega⟩
  refine ⟨?_, hlen, ?_, ?_⟩
  · have e1 : live_segments (snake_move s c) =
        (List.range n).map (fun i => (snake_move s c).segments
          (((snake_move s c).tail + i) % MAX_SNAKE_LENGTH)) ++
        [(snake_move s c).segments (((snake_move s c).tail + n) % MAX_SNAKE_LENGTH)] := by
      unfold live_segments
      rw [hlen, hn, List.range_succ, List.map_append, List.map_singleton]
    have e2 : (live_segments s).tail =
        (List.range n).map ((fun i => s.segments ((s.tail + i) % MAX_SNAKE_LENGTH)) ∘
          Nat.succ) := by
      unfold live_segments
      rw [hn, List.range_succ_eq_map, List.map_cons, List.tail_cons, List.map_map]
    rw [e1, e2]
    unfold live_length MAX_SNAKE_LENGTH at hn
    congr 1
    · apply List.map_congr_left
      intro i hi
      rw [List.mem_range] at hi
      simp only [snake_move, snake_pop_segment, snake_add_segment, seg_set,
        MAX_SNAKE_LENGTH, UINT_MOD, Function.comp, Nat.succ_eq_add_one]
      rw [if_neg (by omega)]
      congr 1
      omega
    · simp only [snake_move, snake_pop_segment, snake_add_segment, seg_set,
        MAX_SNAKE_LENGTH, UINT_MOD]
      rw [if_pos (by omega)]
  · simp only [snake_move, snake_pop_segment, snake_add_segment, MAX_SNAKE_LENGTH, UINT_MOD]
    omega
  · simp only [snake_move, snake_pop_segment, snake_add_segment, MAX_SNAKE_LENGTH, UINT_MOD]
    omega

theorem grid_cells_card : grid_cells.card ≤ 64 := by
  unfold grid_cells
  refine le_trans Finset.card_image_le ?_
  simp [SNAKE_GAME_HEIGHT, SNAKE_GAME_WIDTH]

theorem mem_grid_cells (c : coord_t) (hy : c.y < SNAKE_GAME_HEIGHT)
    (hx : c.x < SNAKE_GAME_WIDTH) : c ∈ grid_cells := by
  unfold grid_cells
  rw [Finset.mem_image]
  exact ⟨(c.y, c.x), by simp [hy, hx], rfl⟩

theorem length_le_of_nodup_in_grid (l : List coord_t) (hn : l.Nodup)
    (hg : ∀ c ∈ l, c.y < SNAKE_GAME_HEIGHT ∧ c.x < SNAKE_GAME_WIDTH) : l.length ≤ 64 := by
  rw [← List.toFinset_card_of_nodup hn]
  refine le_trans (Finset.card_le_card ?_) grid_cells_card
  intro c hc
  rw [List.mem_toFinset] at hc
  exact mem_grid_cells c (hg c hc).1 (hg c hc).2

/-! ## Facts about a consistent state -/

theorem MAP_ELEM_MAP_SET (m : snake_game_map_t) (c p : coord_t) (v : cell_t) :
    MAP_ELEM (MAP_SET m c v) p = if p = c then v else MAP_ELEM m p := by
  unfold MAP_ELEM MAP_SET
  by_cases h : p = c
  · rw [if_pos h, if_pos ⟨by rw [h], by rw [h]⟩]
  · rw [if_neg h, if_neg]
    intro h1
    exact h ((coord_eq_iff p c).2 ⟨h1.2, h1.1⟩)

theorem live_segments_cons (s : snake_t) (ht : s.tail < MAX_SNAKE_LENGTH) :
    live_segments s = s.segments s.tail :: (live_segments s).tail := by
  obtain ⟨n, hn⟩ : ∃ n, live_length s = n + 1 := ⟨live_length s - 1, by
    have := live_length_pos s
    omega⟩
  unfold MAX_SNAKE_LENGTH at ht
  have e0 : (s.tail + 0) % 64 = s.tail := by omega
  unfold live_segments
  rw [hn, List.range_succ_eq_map, List.map_cons, List.tail_cons]
  simp only [MAX_SNAKE_LENGTH, e0]

theorem head_mem_live_segments (s : snake_t) (ht : s.tail < MAX_SNAKE_LENGTH)
    (hh : s.head < MAX_SNAKE_LENGTH) : s.segments s.head ∈ live_segments s := by
  unfold MAX_SNAKE_LENGTH at ht hh
  unfold live_segments
  rw [List.mem_map]
  refine ⟨live_length s - 1, ?_, ?_⟩
  · rw [List.mem_range]
    have := live_length_pos s
    omega
  · congr 1
    unfold live_length MAX_SNAKE_LENGTH
    omega

/-- What an unfinished state satisfying the invariant provides to each path of
`snake_game_update`. -/
theorem consistent_facts (game : snake_game_t) (d : snake_dir_t)
    (hc : Consistent game) (ht : game.snake.tail < MAX_SNAKE_LENGTH)
    (hh : game.snake.head < MAX_SNAKE_LENGTH) :
    (∀ p : coord_t, p.y < SNAKE_GAME_HEIGHT → p.x < SNAKE_GAME_WIDTH →
      (MAP_ELEM game.map p = CELL_SNAKE ↔ p ∈ live_segments game.snake)) ∧
    (∀ p : coord_t, p.y < SNAKE_GAME_HEIGHT → p.x < SNAKE_GAME_WIDTH →
      (MAP_ELEM game.map p = CELL_RABBIT ↔ p = game.rabbit)) ∧
    game.rabbit ∉ live_segments game.snake ∧
    live_length game.snake < MAX_SNAKE_LENGTH ∧
    ((new_head_of game d).y < SNAKE_GAME_HEIGHT ∧
      (new_head_of game d).x < SNAKE_GAME_WIDTH) := by
  obtain ⟨hn, ⟨hin, hs⟩, hry, hrx, hr⟩ := hc
  have h1 : ∀ p : coord_t, p.y < SNAKE_GAME_HEIGHT → p.x < SNAKE_GAME_WIDTH →
      (MAP_ELEM game.map p = CELL_SNAKE ↔ p ∈ live_segments game.snake) :=
    fun p hy hx => hs p.y hy p.x hx
  have h2 : ∀ p : coord_t, p.y < SNAKE_GAME_HEIGHT → p.x < SNAKE_GAME_WIDTH →
      (MAP_ELEM game.map p = CELL_RABBIT ↔ p = game.rabbit) :=
    fun p hy hx => hr p.y hy p.x hx
  have h3 : game.rabbit ∉ live_segments game.snake := by
    intro hm
    have a := (h1 _ hry hrx).2 hm
    have b := (h2 _ hry hrx).2 rfl
    rw [a] at b
    exact absurd b (by decide)
  refine ⟨h1, h2, h3, ?_, ?_⟩
  · have hlen := length_le_of_nodup_in_grid (game.rabbit :: live_segments game.snake)
      (List.nodup_cons.2 ⟨h3, hn⟩) (by
        intro c hc
        rcases List.mem_cons.1 hc with hc | hc
        · rw [hc]
          exact ⟨hry, hrx⟩
        · exact hin c hc)
    rw [List.length_cons, length_live_segments] at hlen
    unfold MAX_SNAKE_LENGTH
    omega
  · have hm := hin _ (head_mem_live_segments game.snake ht hh)
    exact snake_next_head_pos_in_grid (turned_snake game d) hm.1 hm.2

/-! ## The invariant is kept by every path of `snake_game_update` -/

theorem inv_rabbit (game : snake_game_t) (d : snake_dir_t) (r : coord_t)
    (hinv : GameInv game) (hf : game.is_finished = false)
    (hr : new_head_of game d = game.rabbit)
    (he : snake_get_empty_coord game.map = some r) :
    GameInv
      { is_finished := false
        score := (game.score + 1) % UINT_MOD
        map := MAP_SET (MAP_SET game.map r CELL_RABBIT) (new_head_of game d) CELL_SNAKE
        snake := snake_add_segment (turned_snake game d) (new_head_of game d)
        rabbit := r } := by
  obtain ⟨ht, hh, hscore, hcons⟩ := hinv
  have hc := hcons hf
  obtain ⟨h1, h2, h3, _, hnh⟩ := consistent_facts game d hc ht hh
  obtain ⟨hn, ⟨hin, _⟩, hry, hrx, _⟩ := hc
  obtain ⟨hr1, hr2, hr3, _, _⟩ := snake_get_empty_coord_some game.map r he
  have hrE : MAP_ELEM game.map r = CELL_EMPTY := hr3
  have hrl : r ∉ live_segments game.snake := by
    intro hm
    have a := (h1 r hr1 hr2).2 hm
    rw [hrE] at a
    exact absurd a (by decide)
  have hrr : r ≠ game.rabbit := by
    intro e
    have b := (h2 r hr1 hr2).2 e
    rw [hrE] at b
    exact absurd b (by decide)
  have hlen := length_le_of_nodup_in_grid (r :: game.rabbit :: live_segments game.snake)
    (List.nodup_cons.2 ⟨by
      rw [List.mem_cons]
      rintro (e | e)
      · exact hrr e
      · exact hrl e, List.nodup_cons.2 ⟨h3, hn⟩⟩) (by
      intro c hc
      rcases List.mem_cons.1 hc with hc | hc
      · rw [hc]
        exact ⟨hr1, hr2⟩
      · rcases List.mem_cons.1 hc with hc | hc
        · rw [hc]
          exact ⟨hry, hrx⟩
        · exact hin c hc)
  simp only [List.length_cons, length_live_segments] at hlen
  have hl : live_length (turned_snake game d) < MAX_SNAKE_LENGTH := by
    show live_length game.snake < MAX_SNAKE_LENGTH
    unfold MAX_SNAKE_LENGTH
    omega
  obtain ⟨a1, a2, a3, a4⟩ :=
    live_segments_add (turned_snake game d) (new_head_of game d) ht hh hl
  have a1 : live_segments (snake_add_segment (turned_snake game d) (new_head_of game d)) =
      live_segments game.snake ++ [new_head_of game d] := a1
  have a2 : live_length (snake_add_segment (turned_snake game d) (new_head_of game d)) =
      live_length game.snake + 1 := a2
  refine ⟨?_, a3, ?_, fun _ => ⟨?_, ⟨?_, ?_⟩, hr1, hr2, ?_⟩⟩
  · rw [a4]
    exact ht
  · simp only [a2, hscore, UINT_MOD]
    omega
  · simp only [a1]
    rw [List.nodup_append_comm]
    simp only [List.singleton_append, List.nodup_cons]
    rw [hr]
    exact ⟨h3, hn⟩
  · intro c hc
    simp only [a1, List.mem_append, List.mem_singleton] at hc
    rcases hc with hc | hc
    · exact hin c hc
    · rw [hc]
      exact hnh
  · intro y hy x hx
    show MAP_ELEM (MAP_SET (MAP_SET game.map r CELL_RABBIT) (new_head_of game d) CELL_SNAKE)
      ⟨y, x⟩ = CELL_SNAKE ↔ _
    simp only [a1, List.mem_append, List.mem_singleton]
    rw [MAP_ELEM_MAP_SET, MAP_ELEM_MAP_SET]
    by_cases e1 : (⟨y, x⟩ : coord_t) = new_head_of game d
    · rw [if_pos e1]
      exact ⟨fun _ => Or.inr e1, fun _ => rfl⟩
    · by_cases e2 : (⟨y, x⟩ : coord_t) = r
      · rw [if_neg e1, if_pos e2]
        constructor
        · intro h
          exact absurd h (by decide)
        · rintro (h | h)
          · rw [e2] at h
            exact absurd h hrl
          · exact absurd h e1
      · rw [if_neg e1, if_neg e2, h1 ⟨y, x⟩ hy hx]
        constructor
        · exact Or.inl
        · rintro (h | h)
          · exact h
          · exact absurd h e1
  · intro y hy x hx
    show MAP_ELEM (MAP_SET (MAP_SET game.map r CELL_RABBIT) (new_head_of game d) CELL_SNAKE)
      ⟨y, x⟩ = CELL_RABBIT ↔ _
    rw [MAP_ELEM_MAP_SET, MAP_ELEM_MAP_SET]
    by_cases e1 : (⟨y, x⟩ : coord_t) = new_head_of game d
    · rw [if_pos e1]
      constructor
      · intro h
        exact absurd h (by decide)
      · intro h
        exact absurd (h.symm.trans (e1.trans hr)) hrr
    · by_cases e2 : (⟨y, x⟩ : coord_t) = r
      · rw [if_neg e1, if_pos e2]
        exact ⟨fun _ => e2, fun _ => rfl⟩
      · rw [if_neg e1, if_neg e2]
        constructor
        · intro h
          exact absurd (((h2 ⟨y, x⟩ hy hx).1 h).trans hr.symm) e1
        · intro h
          exact absurd h e2
theorem inv_move (game : snake_game_t) (d : snake_dir_t)
    (hinv : GameInv game) (hf : game.is_finished = false)
    (hr : new_head_of game d ≠ game.rabbit)
    (hcl : MAP_ELEM (MAP_SET game.map (game.snake.segments game.snake.tail) CELL_EMPTY)
      (new_head_of game d) = CELL_EMPTY) :
    GameInv
      { game with
        map := MAP_SET (MAP_SET game.map (game.snake.segments game.snake.tail) CELL_EMPTY)
          (new_head_of game d) CELL_SNAKE
        snake := snake_move (turned_snake game d) (new_head_of game d) } := by
  obtain ⟨ht, hh, hscore, hcons⟩ := hinv
  have hc := hcons hf
  obtain ⟨h1, h2, h3, hl, hnh⟩ := consistent_facts game d hc ht hh
  obtain ⟨hn, ⟨hin, _⟩, hry, hrx, _⟩ := hc
  obtain ⟨a1, a2, a3, a4⟩ :=
    live_segments_move (turned_snake game d) (new_head_of game d) ht hh hl
  have a1 : live_segments (snake_move (turned_snake game d) (new_head_of game d)) =
      (live_segments game.snake).tail ++ [new_head_of game d] := a1
  have a2 : live_length (snake_move (turned_snake game d) (new_head_of game d)) =
      live_length game.snake := a2
  have hcons1 := live_segments_cons game.snake ht
  have hn1 := hn
  rw [hcons1, List.nodup_cons] at hn1
  obtain ⟨htl, hnt⟩ := hn1
  have hmem : ∀ p, p ∈ live_segments game.snake ↔
      p = game.snake.segments game.snake.tail ∨ p ∈ (live_segments game.snake).tail := by
    intro p
    conv_lhs => rw [hcons1]
    exact List.mem_cons
  have hnt1 : new_head_of game d ∉ (live_segments game.snake).tail := by
    rw [MAP_ELEM_MAP_SET] at hcl
    by_cases e : new_head_of game d = game.snake.segments game.snake.tail
    · rw [e]
      exact htl
    · rw [if_neg e] at hcl
      intro hm
      have := (h1 _ hnh.1 hnh.2).2 ((hmem _).2 (Or.inr hm))
      rw [hcl] at this
      exact absurd this (by decide)
  have htr : game.snake.segments game.snake.tail ≠ game.rabbit := by
    intro e
    exact h3 ((hmem _).2 (Or.inl e.symm))
  refine ⟨a4, a3, ?_, fun _ => ⟨?_, ⟨?_, ?_⟩, hry, hrx, ?_⟩⟩
  · show game.score = live_length (snake_move (turned_snake game d) (new_head_of game d))
    rw [a2]
    exact hscore
  · simp only [a1]
    rw [List.nodup_append_comm]
    simp only [List.singleton_append, List.nodup_cons]
    exact ⟨hnt1, hnt⟩
  · intro c hc
    simp only [a1, List.mem_append, List.mem_singleton] at hc
    rcases hc with hc | hc
    · exact hin c ((hmem c).2 (Or.inr hc))
    · rw [hc]
      exact hnh
  · intro y hy x hx
    show MAP_ELEM (MAP_SET (MAP_SET game.map (game.snake.segments game.snake.tail) CELL_EMPTY)
      (new_head_of game d) CELL_SNAKE) ⟨y, x⟩ = CELL_SNAKE ↔ _
    simp only [a1, List.mem_append, List.mem_singleton]
    rw [MAP_ELEM_MAP_SET, MAP_ELEM_MAP_SET]
    by_cases e1 : (⟨y, x⟩ : coord_t) = new_head_of game d
    · rw [if_pos e1]
      exact ⟨fun _ => Or.inr e1, fun _ => rfl⟩
    · by_cases e2 : (⟨y, x⟩ : coord_t) = game.snake.segments game.snake.tail
      · rw [if_neg e1, if_pos e2]
        constructor
        · intro h
          exact absurd h (by decide)
        · rintro (h | h)
          · rw [e2] at h
            exact absurd h htl
          · exact absurd h e1
      · rw [if_neg e1, if_neg e2, h1 ⟨y, x⟩ hy hx, hmem]
        constructor
        · rintro (h | h)
          · exact absurd h e2
          · exact Or.inl h
        · rintro (h | h)
          · exact Or.inr h
          · exact absurd h e1
  · intro y hy x hx
    show MAP_ELEM (MAP_SET (MAP_SET game.map (game.snake.segments game.snake.tail) CELL_EMPTY)
      (new_head_of game d) CELL_SNAKE) ⟨y, x⟩ = CELL_RABBIT ↔ _
    rw [MAP_ELEM_MAP_SET, MAP_ELEM_MAP_SET]
    by_cases e1 : (⟨y, x⟩ : coord_t) = new_head_of game d
    · rw [if_pos e1]
      constructor
      · intro h
        exact absurd h (by decide)
      · intro h
        exact absurd (e1.symm.trans h) hr
    · by_cases e2 : (⟨y, x⟩ : coord_t) = game.snake.segments game.snake.tail
      · rw [if_neg e1, if_pos e2]
        constructor
        · intro h
          exact absurd h (by decide)
        · intro h
          exact absurd (e2.symm.trans h) htr
      · rw [if_neg e1, if_neg e2]
        exact h2 ⟨y, x⟩ hy hx

theorem inv_collision (game : snake_game_t) (d : snake_dir_t) (hinv : GameInv game) :
    GameInv
      { game with
        is_finished := true
        map := MAP_SET game.map (game.snake.segments game.snake.tail) CELL_EMPTY
        snake := turned_snake game d } := by
  obtain ⟨ht, hh, hscore, _⟩ := hinv
  refine ⟨ht, hh, hscore, ?_⟩
  intro h
  simp at h

theorem inv_update (game : snake_game_t) (d : snake_dir_t) (game1 : snake_game_t)
    (hinv : GameInv game) (hu : snake_game_update game d = some game1) : GameInv game1 := by
  cases hf : game.is_finished
  · by_cases hr : (new_head_of game d).x = game.rabbit.x ∧
        (new_head_of game d).y = game.rabbit.y
    · cases he : snake_get_empty_coord game.map with
      | none =>
        unfold new_head_of turned_snake at hr
        unfold snake_game_update at hu
        simp only [hf, Bool.false_eq_true, if_false, hr, and_self, if_true, he] at hu
        exact absurd hu (by simp)
      | some r =>
        rw [update_rabbit game d r hf hr he] at hu
        cases hu
        exact inv_rabbit game d r hinv hf ((coord_eq_iff _ _).2 hr) he
    · by_cases hc : MAP_ELEM (MAP_SET game.map (game.snake.segments game.snake.tail)
          CELL_EMPTY) (new_head_of game d) = CELL_EMPTY
      · rw [update_move game d hf hr hc] at hu
        cases hu
        exact inv_move game d hinv hf (fun e => hr ((coord_eq_iff _ _).1 e)) hc
      · rw [update_collision game d hf hr hc] at hu
        cases hu
        exact inv_collision game d hinv
  · rw [update_finished game d hf] at hu
    cases hu
    exact hinv

theorem inv_run (ds : List snake_dir_t) (game game1 : snake_game_t)
    (hinv : GameInv game) (hu : snake_game_run game ds = some game1) : GameInv game1 := by
  induction ds generalizing game with
  | nil =>
    unfold snake_game_run at hu
    cases hu
    exact hinv
  | cons d ds ih =>
    unfold snake_game_run at hu
    cases h : snake_game_update game d with
    | none =>
      rw [h] at hu
      exact absurd hu (by simp)
    | some game2 =>
      rw [h] at hu
      exact ih game2 (inv_update game d game2 hinv h) hu
/-! ## The invariant holds after `snake_game_init` and in every reachable state -/

theorem snake_game_init_eq (game0 : snake_game_t) :
    snake_game_init game0 = some
      { is_finished := false
        score := 1
        map := MAP_SET (MAP_SET (snake_clear_game_map game0.map) ⟨3, 3⟩ CELL_SNAKE)
          ⟨1, 1⟩ CELL_RABBIT
        snake := snake_init game0.snake ⟨3, 3⟩
        rabbit := ⟨1, 1⟩ } := by
  have hr : snake_get_empty_coord
      (MAP_SET (snake_clear_game_map game0.map) ⟨3, 3⟩ CELL_SNAKE) = some ⟨1, 1⟩ := by
    rw [snake_get_empty_coord_congr _ one_snake_map]
    · exact snake_get_empty_coord_one_snake_map
    · intro y x hy hx
      unfold MAP_SET one_snake_map
      rw [snake_clear_game_map_apply _ y x hy hx]
  unfold snake_game_init
  simp only [hr]

theorem inv_init (game0 game : snake_game_t) (h : snake_game_init game0 = some game) :
    GameInv game := by
  rw [snake_game_init_eq] at h
  cases h
  have hl : live_segments (snake_init game0.snake ⟨3, 3⟩) = [⟨3, 3⟩] := by
    simp [live_segments, live_length, snake_init, seg_set, MAX_SNAKE_LENGTH, List.range_succ]
  have hcell : ∀ p : coord_t, p.y < SNAKE_GAME_HEIGHT → p.x < SNAKE_GAME_WIDTH →
      MAP_ELEM (MAP_SET (MAP_SET (snake_clear_game_map game0.map) ⟨3, 3⟩ CELL_SNAKE)
        ⟨1, 1⟩ CELL_RABBIT) p =
      if p = ⟨1, 1⟩ then CELL_RABBIT else if p = ⟨3, 3⟩ then CELL_SNAKE else CELL_EMPTY := by
    intro p hy hx
    rw [MAP_ELEM_MAP_SET, MAP_ELEM_MAP_SET]
    unfold MAP_ELEM
    rw [snake_clear_game_map_apply _ _ _ hy hx]
  refine ⟨by simp [snake_init, MAX_SNAKE_LENGTH], by simp [snake_init, MAX_SNAKE_LENGTH],
    by simp [live_length, snake_init, MAX_SNAKE_LENGTH],
    fun _ => ⟨?_, ⟨?_, ?_⟩, by simp [SNAKE_GAME_HEIGHT], by simp [SNAKE_GAME_WIDTH], ?_⟩⟩
  · simp only [hl, List.nodup_cons, List.not_mem_nil, not_false_eq_true, List.nodup_nil,
      and_self]
  · intro c hc
    simp only [hl, List.mem_singleton] at hc
    rw [hc]
    decide
  · intro y hy x hx
    have := hcell ⟨y, x⟩ hy hx
    unfold MAP_ELEM at this
    simp only [hl, List.mem_singleton]
    simp only at this
    rw [this]
    by_cases e1 : (⟨y, x⟩ : coord_t) = ⟨1, 1⟩
    · rw [if_pos e1, e1]
      decide
    · rw [if_neg e1]
      by_cases e2 : (⟨y, x⟩ : coord_t) = ⟨3, 3⟩
      · rw [if_pos e2]
        exact ⟨fun _ => e2, fun _ => rfl⟩
      · rw [if_neg e2]
        exact ⟨fun h => absurd h (by decide), fun h => absurd h e2⟩
  · intro y hy x hx
    have := hcell ⟨y, x⟩ hy hx
    unfold MAP_ELEM at this
    simp only at this
    show MAP_SET (MAP_SET (snake_clear_game_map game0.map) ⟨3, 3⟩ CELL_SNAKE) ⟨1, 1⟩
      CELL_RABBIT y x = CELL_RABBIT ↔ (⟨y, x⟩ : coord_t) = ⟨1, 1⟩
    rw [this]
    by_cases e1 : (⟨y, x⟩ : coord_t) = ⟨1, 1⟩
    · rw [if_pos e1]
      exact ⟨fun _ => e1, fun _ => rfl⟩
    · rw [if_neg e1]
      by_cases e2 : (⟨y, x⟩ : coord_t) = ⟨3, 3⟩
      · rw [if_pos e2]
        exact ⟨fun h => absurd h (by decide), fun h => absurd h e1⟩
      · rw [if_neg e2]
        exact ⟨fun h => absurd h (by decide), fun h => absurd h e1⟩

theorem reachable_inv (game : snake_game_t) (h : Reachable game) : GameInv game := by
  obtain ⟨game0, game1, ds, h0, h1⟩ := h
  exact inv_run ds game1 game (inv_init game0 game1 h0) h1

theorem reachable_game_after (ds : List snake_dir_t)
    (h : ∃ game1, snake_game_init zero_game = some game1 ∧
      (snake_game_run game1 ds).isSome = true) :
    Reachable (game_after ds) := by
  obtain ⟨game1, h0, h1⟩ := h
  obtain ⟨game2, h2⟩ := Option.isSome_iff_exists.1 h1
  refine ⟨zero_game, game1, ds, h0, ?_⟩
  unfold game_after
  rw [h0]
  simp only [h2]
theorem reachable_after_loop : Reachable (game_after (loop_dirs ++ [DIR_DOWN])) :=
  reachable_game_after _ ⟨_, snake_game_init_eq zero_game, by decide!⟩

theorem reachable_after_one : Reachable (game_after [DIR_UNKNOWN]) :=
  reachable_game_after _ ⟨_, snake_game_init_eq zero_game, by decide!⟩

theorem reachable_before_food :
    Reachable (game_after [DIR_UNKNOWN, DIR_UNKNOWN, DIR_LEFT]) :=
  reachable_game_after _ ⟨_, snake_game_init_eq zero_game, by decide!⟩

/-! ## Claim C1 -/

/-- C1, as stated, fails: after the twenty-one updates `loop_dirs ++ [DIR_DOWN]` the
snake has run into its second segment; the state is finished, the tail segment
(2, 4) is still a live segment, and its map cell has been cleared to `CELL_EMPTY`,
so the snake cells are not the live body. -/
theorem grid_body_consistency_counterexample :
    Reachable (game_after (loop_dirs ++ [DIR_DOWN])) ∧
    (game_after (loop_dirs ++ [DIR_DOWN])).is_finished = true ∧
    (game_after (loop_dirs ++ [DIR_DOWN])).map 2 4 = CELL_EMPTY ∧
    (⟨2, 4⟩ : coord_t) ∈ live_segments (game_after (loop_dirs ++ [DIR_DOWN])).snake ∧
    ¬ SnakeCellsAreBody (game_after (loop_dirs ++ [DIR_DOWN])) := by
  have h : (game_after (loop_dirs ++ [DIR_DOWN])).is_finished = true ∧
      (game_after (loop_dirs ++ [DIR_DOWN])).map 2 4 = CELL_EMPTY ∧
      (⟨2, 4⟩ : coord_t) ∈ live_segments (game_after (loop_dirs ++ [DIR_DOWN])).snake := by
    decide!
  refine ⟨reachable_after_loop, h.1, h.2.1, h.2.2, ?_⟩
  intro hc
  have h1 := (hc.2 2 (by decide) 4 (by decide)).2 h.2.2
  rw [h.2.1] at h1
  exact absurd h1 (by decide)

/-- C1, amended: in every state reached from `snake_game_init` by `snake_game_update`
calls none of which is a food step on a map without an empty cell, if `is_finished`
is false then the grid cells marked `CELL_SNAKE` are exactly the coordinates of the
live body segments `segments[tail], ..., segments[head]`, and these segments are
pairwise distinct cells of the grid. -/
theorem grid_body_consistency (game : snake_game_t) (h : Reachable game)
    (hf : game.is_finished = false) :
    (∀ c ∈ live_segments game.snake, c.y < SNAKE_GAME_HEIGHT ∧ c.x < SNAKE_GAME_WIDTH ∧
      MAP_ELEM game.map c = CELL_SNAKE) ∧
    (∀ y, y < SNAKE_GAME_HEIGHT → ∀ x, x < SNAKE_GAME_WIDTH →
      (game.map y x = CELL_SNAKE ↔ (⟨y, x⟩ : coord_t) ∈ live_segments game.snake)) ∧
    (live_segments game.snake).Nodup := by
  obtain ⟨_, _, _, hcons⟩ := reachable_inv game h
  obtain ⟨hn, ⟨hin, hs⟩, _⟩ := hcons hf
  refine ⟨?_, hs, hn⟩
  intro c hc
  exact ⟨(hin c hc).1, (hin c hc).2, (hs c.y (hin c hc).1 c.x (hin c hc).2).2 hc⟩

theorem grid_body_consistency_witness :
    Reachable (game_after [DIR_UNKNOWN]) ∧
    (game_after [DIR_UNKNOWN]).is_finished = false ∧
    (∀ c ∈ live_segments (game_after [DIR_UNKNOWN]).snake,
      c.y < SNAKE_GAME_HEIGHT ∧ c.x < SNAKE_GAME_WIDTH ∧
      MAP_ELEM (game_after [DIR_UNKNOWN]).map c = CELL_SNAKE) ∧
    (∀ y, y < SNAKE_GAME_HEIGHT → ∀ x, x < SNAKE_GAME_WIDTH →
      ((game_after [DIR_UNKNOWN]).map y x = CELL_SNAKE ↔
        (⟨y, x⟩ : coord_t) ∈ live_segments (game_after [DIR_UNKNOWN]).snake)) ∧
    (live_segments (game_after [DIR_UNKNOWN]).snake).Nodup :=
  have hf : (game_after [DIR_UNKNOWN]).is_finished = false := by decide!
  ⟨reachable_after_one, hf,
   grid_body_consistency (game_after [DIR_UNKNOWN]) reachable_after_one hf⟩

/-! ## Food, score and food step before the grid is full -/

/-- Food uniqueness up to the food step on a full grid: in every state of
`Reachable`, if `is_finished` is false then the stored food coordinate `rabbit` is a
cell of the grid, that cell is `CELL_RABBIT`, and it is the only `CELL_RABBIT` cell
of the grid. -/
theorem food_uniqueness (game : snake_game_t) (h : Reachable game)
    (hf : game.is_finished = false) :
    game.rabbit.y < SNAKE_GAME_HEIGHT ∧ game.rabbit.x < SNAKE_GAME_WIDTH ∧
    MAP_ELEM game.map game.rabbit = CELL_RABBIT ∧
    (∀ y, y < SNAKE_GAME_HEIGHT → ∀ x, x < SNAKE_GAME_WIDTH →
      game.map y x = CELL_RABBIT → (⟨y, x⟩ : coord_t) = game.rabbit) := by
  obtain ⟨_, _, _, hcons⟩ := reachable_inv game h
  obtain ⟨_, _, hry, hrx, hr⟩ := hcons hf
  refine ⟨hry, hrx, (hr _ hry _ hrx).2 rfl, ?_⟩
  intro y hy x hx hc
  exact (hr y hy x hx).1 hc

theorem food_uniqueness_witness :
    Reachable (game_after [DIR_UNKNOWN]) ∧
    (game_after [DIR_UNKNOWN]).is_finished = false ∧
    (game_after [DIR_UNKNOWN]).rabbit.y < SNAKE_GAME_HEIGHT ∧
    (game_after [DIR_UNKNOWN]).rabbit.x < SNAKE_GAME_WIDTH ∧
    MAP_ELEM (game_after [DIR_UNKNOWN]).map (game_after [DIR_UNKNOWN]).rabbit = CELL_RABBIT ∧
    (∀ y, y < SNAKE_GAME_HEIGHT → ∀ x, x < SNAKE_GAME_WIDTH →
      (game_after [DIR_UNKNOWN]).map y x = CELL_RABBIT →
      (⟨y, x⟩ : coord_t) = (game_after [DIR_UNKNOWN]).rabbit) :=
  have hf : (game_after [DIR_UNKNOWN]).is_finished = false := by decide!
  ⟨reachable_after_one, hf,
   food_uniqueness (game_after [DIR_UNKNOWN]) reachable_after_one hf⟩

/-- Score and body length up to the food step on a full grid: in every state of
`Reachable`, `score = ((head - tail) mod MAX_SNAKE_LENGTH) + 1`, which is the number
of live body segments; both indices are below `MAX_SNAKE_LENGTH`. -/
theorem score_is_body_length (game : snake_game_t) (h : Reachable game) :
    (game.score : Int) =
      ((game.snake.head : Int) - (game.snake.tail : Int)) % (MAX_SNAKE_LENGTH : Int) + 1 ∧
    game.score = (live_segments game.snake).length ∧
    game.snake.head < MAX_SNAKE_LENGTH ∧ game.snake.tail < MAX_SNAKE_LENGTH := by
  obtain ⟨ht, hh, hs, _⟩ := reachable_inv game h
  refine ⟨?_, ?_, hh, ht⟩
  · rw [hs]
    unfold live_length
    unfold MAX_SNAKE_LENGTH at *
    push_cast
    omega
  · rw [length_live_segments]
    exact hs

theorem score_is_body_length_witness :
    Reachable (game_after (loop_dirs ++ [DIR_DOWN])) ∧
    ((game_after (loop_dirs ++ [DIR_DOWN])).score : Int) =
      (((game_after (loop_dirs ++ [DIR_DOWN])).snake.head : Int) -
        ((game_after (loop_dirs ++ [DIR_DOWN])).snake.tail : Int)) %
        (MAX_SNAKE_LENGTH : Int) + 1 ∧
    (game_after (loop_dirs ++ [DIR_DOWN])).score =
      (live_segments (game_after (loop_dirs ++ [DIR_DOWN])).snake).length ∧
    (game_after (loop_dirs ++ [DIR_DOWN])).snake.head < MAX_SNAKE_LENGTH ∧
    (game_after (loop_dirs ++ [DIR_DOWN])).snake.tail < MAX_SNAKE_LENGTH :=
  ⟨reachable_after_loop,
   score_is_body_length (game_after (loop_dirs ++ [DIR_DOWN])) reachable_after_loop⟩

/-- The food step where the scan finds a cell: in an unfinished state of `Reachable`
whose new head is the food coordinate, with `r` the result of
`snake_get_empty_coord` on the map before the update, `snake_game_update` (a) stores `r` as the food coordinate, (b) advances
`head` by one slot modulo `MAX_SNAKE_LENGTH` and stores the new head there, so that
the live body is the old one with the new head appended, while `tail` and the map
cell of the tail segment are as before, (c) marks the new head cell, which held the
food, `CELL_SNAKE`, (d) increases `score` by exactly 1, and (e) leaves `is_finished`
false. -/
theorem food_collision_step (game : snake_game_t) (d : snake_dir_t) (r : coord_t)
    (h : Reachable game) (hf : game.is_finished = false)
    (hr : new_head_of game d = game.rabbit)
    (he : snake_get_empty_coord game.map = some r) :
    ∃ game1, snake_game_update game d = some game1 ∧
      game1.rabbit = r ∧
      game1.snake.head = (game.snake.head + 1) % MAX_SNAKE_LENGTH ∧
      game1.snake.segments game1.snake.head = new_head_of game d ∧
      live_segments game1.snake = live_segments game.snake ++ [new_head_of game d] ∧
      game1.snake.tail = game.snake.tail ∧
      MAP_ELEM game1.map (game.snake.segments game.snake.tail) =
        MAP_ELEM game.map (game.snake.segments game.snake.tail) ∧
      MAP_ELEM game.map (new_head_of game d) = CELL_RABBIT ∧
      MAP_ELEM game1.map (new_head_of game d) = CELL_SNAKE ∧
      game1.score = game.score + 1 ∧
      game1.is_finished = false := by
  have hinv := reachable_inv game h
  obtain ⟨ht, hh, hscore, hcons⟩ := hinv
  have hc := hcons hf
  obtain ⟨h1, h2, h3, hl, hnh⟩ := consistent_facts game d hc ht hh
  obtain ⟨hn, ⟨hin, _⟩, hry, hrx, _⟩ := hc
  obtain ⟨hr1, hr2, hr3, _, _⟩ := snake_get_empty_coord_some game.map r he
  have hrE : MAP_ELEM game.map r = CELL_EMPTY := hr3
  have htl : game.snake.segments game.snake.tail ∈ live_segments game.snake := by
    rw [live_segments_cons game.snake ht]
    exact List.mem_cons_self _ _
  have hrl : r ∉ live_segments game.snake := by
    intro hm
    have a := (h1 r hr1 hr2).2 hm
    rw [hrE] at a
    exact absurd a (by decide)
  obtain ⟨a1, _, _, _⟩ :=
    live_segments_add (turned_snake game d) (new_head_of game d) ht hh hl
  refine ⟨_, update_rabbit game d r hf ((coord_eq_iff _ _).1 hr) he, rfl, ?_, ?_, a1, rfl,
    ?_, ?_, ?_, ?_, rfl⟩
  · unfold MAX_SNAKE_LENGTH at hh
    simp only [snake_add_segment, turned_snake, MAX_SNAKE_LENGTH, UINT_MOD]
    omega
  · simp only [snake_add_segment, seg_set, if_true]
  · show MAP_ELEM (MAP_SET (MAP_SET game.map r CELL_RABBIT) (new_head_of game d) CELL_SNAKE)
      (game.snake.segments game.snake.tail) = _
    rw [MAP_ELEM_MAP_SET, MAP_ELEM_MAP_SET, if_neg, if_neg]
    · intro e
      rw [e] at htl
      exact hrl htl
    · intro e
      rw [e, hr] at htl
      exact h3 htl
  · rw [hr]
    exact (h2 _ hry hrx).2 rfl
  · show MAP_ELEM (MAP_SET (MAP_SET game.map r CELL_RABBIT) (new_head_of game d) CELL_SNAKE)
      (new_head_of game d) = CELL_SNAKE
    rw [MAP_ELEM_MAP_SET, if_pos rfl]
  · show (game.score + 1) % UINT_MOD = game.score + 1
    unfold MAX_SNAKE_LENGTH at hl
    unfold UINT_MOD
    omega

theorem food_collision_step_witness :
    Reachable (game_after [DIR_UNKNOWN, DIR_UNKNOWN, DIR_LEFT]) ∧
    ((game_after [DIR_UNKNOWN, DIR_UNKNOWN, DIR_LEFT]).is_finished = false ∧
      new_head_of (game_after [DIR_UNKNOWN, DIR_UNKNOWN, DIR_LEFT]) DIR_LEFT =
        (game_after [DIR_UNKNOWN, DIR_UNKNOWN, DIR_LEFT]).rabbit ∧
      snake_get_empty_coord (game_after [DIR_UNKNOWN, DIR_UNKNOWN, DIR_LEFT]).map =
        some ⟨1, 4⟩) ∧
    ∃ game1, snake_game_update (game_after [DIR_UNKNOWN, DIR_UNKNOWN, DIR_LEFT]) DIR_LEFT =
        some game1 ∧
      game1.rabbit = ⟨1, 4⟩ ∧
      game1.snake.head =
        ((game_after [DIR_UNKNOWN, DIR_UNKNOWN, DIR_LEFT]).snake.head + 1) %
          MAX_SNAKE_LENGTH ∧
      game1.snake.segments game1.snake.head =
        new_head_of (game_after [DIR_UNKNOWN, DIR_UNKNOWN, DIR_LEFT]) DIR_LEFT ∧
      live_segments game1.snake =
        live_segments (game_after [DIR_UNKNOWN, DIR_UNKNOWN, DIR_LEFT]).snake ++
          [new_head_of (game_after [DIR_UNKNOWN, DIR_UNKNOWN, DIR_LEFT]) DIR_LEFT] ∧
      game1.snake.tail = (game_after [DIR_UNKNOWN, DIR_UNKNOWN, DIR_LEFT]).snake.tail ∧
      MAP_ELEM game1.map
          ((game_after [DIR_UNKNOWN, DIR_UNKNOWN, DIR_LEFT]).snake.segments
            (game_after [DIR_UNKNOWN, DIR_UNKNOWN, DIR_LEFT]).snake.tail) =
        MAP_ELEM (game_after [DIR_UNKNOWN, DIR_UNKNOWN, DIR_LEFT]).map
          ((game_after [DIR_UNKNOWN, DIR_UNKNOWN, DIR_LEFT]).snake.segments
            (game_after [DIR_UNKNOWN, DIR_UNKNOWN, DIR_LEFT]).snake.tail) ∧
      MAP_ELEM (game_after [DIR_UNKNOWN, DIR_UNKNOWN, DIR_LEFT]).map
        (new_head_of (game_after [DIR_UNKNOWN, DIR_UNKNOWN, DIR_LEFT]) DIR_LEFT) =
        CELL_RABBIT ∧
      MAP_ELEM game1.map
        (new_head_of (game_after [DIR_UNKNOWN, DIR_UNKNOWN, DIR_LEFT]) DIR_LEFT) =
        CELL_SNAKE ∧
      game1.score = (game_after [DIR_UNKNOWN, DIR_UNKNOWN, DIR_LEFT]).score + 1 ∧
      game1.is_finished = false :=
  have hyp : (game_after [DIR_UNKNOWN, DIR_UNKNOWN, DIR_LEFT]).is_finished = false ∧
      new_head_of (game_after [DIR_UNKNOWN, DIR_UNKNOWN, DIR_LEFT]) DIR_LEFT =
        (game_after [DIR_UNKNOWN, DIR_UNKNOWN, DIR_LEFT]).rabbit ∧
      snake_get_empty_coord (game_after [DIR_UNKNOWN, DIR_UNKNOWN, DIR_LEFT]).map =
        some ⟨1, 4⟩ := by decide!
  ⟨reachable_before_food, hyp,
   food_collision_step (game_after [DIR_UNKNOWN, DIR_UNKNOWN, DIR_LEFT]) DIR_LEFT ⟨1, 4⟩
     reachable_before_food hyp.1 hyp.2.1 hyp.2.2⟩

theorem ISR_ADC_vect_vx {κ : Type} (s : joystick_t κ) (x : Nat)
    (hp : s._joystick_current_pin = eJoystickCurrentPinVX) :
    ISR_ADC_vect s x =
      ({ s with
         joystick_new_x := adc_val x
         _joystick_current_pin := eJoystickCurrentPinVY
         ADMUX := JOYSTICK_VY_PIN
         ADCSRA := 0b11011111 }, []) := by
  unfold ISR_ADC_vect
  simp only [hp, if_true]

theorem ISR_ADC_vect_vy {κ : Type} (s : joystick_t κ) (cb : κ) (y : Nat)
    (hp : s._joystick_current_pin = eJoystickCurrentPinVY)
    (hcb : s._joystick_callback = some cb) :
    ISR_ADC_vect s y =
      ({ s with
         _joystick_prev_x := s.joystick_new_x
         _joystick_prev_y := adc_val y
         _joystick_current_pin := eJoystickCurrentPinVX
         ADMUX := JOYSTICK_VX_PIN
         ADCSRA := 0b11011111 },
       if _async_joystick_pos_to_dir s._joystick_prev_x s._joystick_prev_y ≠
           _async_joystick_pos_to_dir s.joystick_new_x (adc_val y)
         then [(cb, _async_joystick_pos_to_dir s.joystick_new_x (adc_val y))] else []) := by
  unfold ISR_ADC_vect async_joystick_getdir
  simp only [hp, hcb, reduceCtorEq, if_false]
  split_ifs <;> rfl

theorem ISR_run_pair {κ : Type} (s : joystick_t κ) (cb : κ) (x y : Nat) (rest : List Nat)
    (hp : s._joystick_current_pin = eJoystickCurrentPinVX)
    (hcb : s._joystick_callback = some cb) :
    ∃ s2 : joystick_t κ, s2._joystick_current_pin = eJoystickCurrentPinVX ∧
      s2._joystick_callback = some cb ∧
      s2._joystick_prev_x = adc_val x ∧ s2._joystick_prev_y = adc_val y ∧
      (ISR_run s (x :: y :: rest)).2 =
        (if _async_joystick_pos_to_dir s._joystick_prev_x s._joystick_prev_y ≠
            _async_joystick_pos_to_dir (adc_val x) (adc_val y)
          then [(cb, _async_joystick_pos_to_dir (adc_val x) (adc_val y))] else []) ++
        (ISR_run s2 rest).2 := by
  have e1 := ISR_ADC_vect_vx s x hp
  have e2 := ISR_ADC_vect_vy (ISR_ADC_vect s x).1 cb y (by rw [e1]) (by rw [e1]; exact hcb)
  refine ⟨(ISR_ADC_vect (ISR_ADC_vect s x).1 y).1, ?_, ?_, ?_, ?_, ?_⟩
  · rw [e2]
  · rw [e2, e1]
    exact hcb
  · rw [e2, e1]
  · rw [e2]
  · have e3 : (ISR_ADC_vect (ISR_ADC_vect s x).1 y).2 =
        if _async_joystick_pos_to_dir s._joystick_prev_x s._joystick_prev_y ≠
            _async_joystick_pos_to_dir (adc_val x) (adc_val y)
          then [(cb, _async_joystick_pos_to_dir (adc_val x) (adc_val y))] else [] := by
      rw [e2, e1]
    have e4 : (ISR_ADC_vect s x).2 = [] := by rw [e1]
    show (ISR_ADC_vect s x).2 ++ ((ISR_ADC_vect (ISR_ADC_vect s x).1 y).2 ++
      (ISR_run (ISR_ADC_vect (ISR_ADC_vect s x).1 y).1 rest).2) = _
    rw [e3, e4, List.nil_append]

/-! ## Claim C10 -/

/-- C10 (sampler notification): in phase VY with stored pair `(px, py)`, pending x
value `nx` and newly converted value `ny`, the handler calls the registered callback
exactly when one is registered and the classifications of `(px, py)` and `(nx, ny)`
differ, then exactly once with the classification of `(nx, ny)`, and the stored pair
becomes `(nx, ny)` in every case; in phase VX it makes no call, keeps the stored pair
and records the pending x value.  Starting from `async_joystick_start` with a callback
registered, four sample pairs classified UNKNOWN, RIGHT, RIGHT, UP give exactly the
two calls RIGHT, then UP. -/
theorem sampler_notification {κ : Type} (s : joystick_t κ) (ADC : Nat) :
    (s._joystick_current_pin = eJoystickCurrentPinVY →
      (∀ cb, s._joystick_callback = some cb →
        _async_joystick_pos_to_dir s._joystick_prev_x s._joystick_prev_y ≠
          _async_joystick_pos_to_dir s.joystick_new_x (adc_val ADC) →
        (ISR_ADC_vect s ADC).2 =
          [(cb, _async_joystick_pos_to_dir s.joystick_new_x (adc_val ADC))]) ∧
      (s._joystick_callback = none ∨
        _async_joystick_pos_to_dir s._joystick_prev_x s._joystick_prev_y =
          _async_joystick_pos_to_dir s.joystick_new_x (adc_val ADC) →
        (ISR_ADC_vect s ADC).2 = []) ∧
      (ISR_ADC_vect s ADC).1._joystick_prev_x = s.joystick_new_x ∧
      (ISR_ADC_vect s ADC).1._joystick_prev_y = adc_val ADC ∧
      (ISR_ADC_vect s ADC).1._joystick_current_pin = eJoystickCurrentPinVX) ∧
    (s._joystick_current_pin = eJoystickCurrentPinVX →
      (ISR_ADC_vect s ADC).2 = [] ∧
      (ISR_ADC_vect s ADC).1._joystick_prev_x = s._joystick_prev_x ∧
      (ISR_ADC_vect s ADC).1._joystick_prev_y = s._joystick_prev_y ∧
      (ISR_ADC_vect s ADC).1.joystick_new_x = adc_val ADC ∧
      (ISR_ADC_vect s ADC).1._joystick_current_pin = eJoystickCurrentPinVY) ∧
    (∀ cb x1 y1 x2 y2 x3 y3 x4 y4, s._joystick_callback = some cb →
      _async_joystick_pos_to_dir (adc_val x1) (adc_val y1) = JOYSTICK_UNKNOWN →
      _async_joystick_pos_to_dir (adc_val x2) (adc_val y2) = JOYSTICK_RIGHT →
      _async_joystick_pos_to_dir (adc_val x3) (adc_val y3) = JOYSTICK_RIGHT →
      _async_joystick_pos_to_dir (adc_val x4) (adc_val y4) = JOYSTICK_UP →
      (ISR_run (async_joystick_start s) [x1, y1, x2, y2, x3, y3, x4, y4]).2 =
        [(cb, JOYSTICK_RIGHT), (cb, JOYSTICK_UP)]) := by
  refine ⟨?_, ?_, ?_⟩
  · intro hp
    have hne : ¬ s._joystick_current_pin = eJoystickCurrentPinVX := by
      rw [hp]
      decide
    refine ⟨?_, ?_, ?_, ?_, ?_⟩
    · intro cb hcb hd
      unfold ISR_ADC_vect async_joystick_getdir
      simp only [hne, if_false, hcb, ne_eq, hd, not_false_eq_true, if_true]
    · intro h
      unfold ISR_ADC_vect async_joystick_getdir
      simp only [hne, if_false]
      cases hcb : s._joystick_callback with
      | none => rfl
      | some cb =>
        rcases h with h | h
        · rw [hcb] at h
          exact absurd h (by simp)
        · simp only [ne_eq, h, not_true_eq_false, if_false]
    · unfold ISR_ADC_vect
      simp only [hne, if_false]
      cases s._joystick_callback with
      | none => rfl
      | some cb =>
        simp only
        split_ifs <;> rfl
    · unfold ISR_ADC_vect
      simp only [hne, if_false]
      cases s._joystick_callback with
      | none => rfl
      | some cb =>
        simp only
        split_ifs <;> rfl
    · unfold ISR_ADC_vect
      simp only [hne, if_false]
      cases s._joystick_callback with
      | none => rfl
      | some cb =>
        simp only
        split_ifs <;> rfl
  · intro hp
    unfold ISR_ADC_vect
    simp only [hp, if_true, and_self]
  · intro cb x1 y1 x2 y2 x3 y3 x4 y4 hcb h1 h2 h3 h4
    have h0 : _async_joystick_pos_to_dir 0 0 = JOYSTICK_UNKNOWN := by decide
    obtain ⟨s1, p1, c1, a1, b1, e1⟩ := ISR_run_pair (async_joystick_start s) cb x1 y1
      [x2, y2, x3, y3, x4, y4] rfl hcb
    obtain ⟨s2, p2, c2, a2, b2, e2⟩ := ISR_run_pair s1 cb x2 y2 [x3, y3, x4, y4] p1 c1
    obtain ⟨s3, p3, c3, a3, b3, e3⟩ := ISR_run_pair s2 cb x3 y3 [x4, y4] p2 c2
    obtain ⟨s4, p4, c4, a4, b4, e4⟩ := ISR_run_pair s3 cb x4 y4 [] p3 c3
    rw [e1, e2, e3, e4, a1, b1, a2, b2, a3, b3, h1, h2, h3, h4]
    have e0 : _async_joystick_pos_to_dir (async_joystick_start s)._joystick_prev_x
        (async_joystick_start s)._joystick_prev_y = JOYSTICK_UNKNOWN := h0
    rw [e0]
    simp [ISR_run]

theorem sampler_notification_witness :
    (ISR_ADC_vect (ISR_ADC_vect zero_joystick 1023).1 512).2 = [(0, JOYSTICK_RIGHT)] ∧
    (ISR_ADC_vect zero_joystick 1023).2 = [] ∧
    (ISR_run (async_joystick_start zero_joystick)
      [512, 512, 1023, 512, 1000, 600, 512, 1023]).2 =
      [(0, JOYSTICK_RIGHT), (0, JOYSTICK_UP)] :=
  ⟨((sampler_notification (ISR_ADC_vect zero_joystick 1023).1 512).1 (by decide)).1 0
      (by decide) (by decide),
   ((sampler_notification zero_joystick 1023).2.1 (by decide)).1,
   (sampler_notification zero_joystick 0).2.2 0 512 512 1023 512 1000 600 512 1023
      (by decide) (by decide) (by decide) (by decide) (by decide)⟩

/-! ## Claim C11 -/

theorem ABS_eq_abs (x : Int) : ABS x = abs x := by
  unfold ABS
  by_cases h : x > 0
  · rw [if_pos h, abs_of_pos h]
  · rw [if_neg h, abs_of_nonpos (not_lt.1 h)]

/-- C11 (direction classifier reference): for all integers `x` and `y`, so for every
pair of signed 8-bit values, `_async_joystick_pos_to_dir x y` is the classification
of the spec with dead zone `JOYSTICK_CUTOFF`: UNKNOWN if `|x| < D` and `|y| < D`,
otherwise RIGHT if `x > 0` and `|y| < x`, otherwise LEFT if `x < 0` and `|y| < -x`,
otherwise UP if `y > 0`, otherwise DOWN; the macro `ABS` is the absolute value, also
at -128, where it is 128. -/
theorem pos_to_dir_is_classify_spec (x y : Int) :
    _async_joystick_pos_to_dir x y = classify_spec x y JOYSTICK_CUTOFF ∧
    ABS x = abs x ∧ ABS y = abs y ∧ ABS (-128) = 128 := by
  refine ⟨?_, ABS_eq_abs x, ABS_eq_abs y, by decide⟩
  unfold _async_joystick_pos_to_dir classify_spec
  rw [ABS_eq_abs, ABS_eq_abs]

/-! ## Claim C12 -/

/-- C12, as stated, fails: the sample (20, 20) is outside the dead zone, its axes
have equal magnitude and `x > 0`, and the classifier returns UP, not RIGHT. -/
theorem tie_break_counterexample :
    abs (20 : Int) = abs (20 : Int) ∧
    ¬ (abs (20 : Int) < JOYSTICK_CUTOFF ∧ abs (20 : Int) < JOYSTICK_CUTOFF) ∧
    (20 : Int) > 0 ∧
    _async_joystick_pos_to_dir 20 20 = JOYSTICK_UP ∧
    _async_joystick_pos_to_dir 20 20 ≠ JOYSTICK_RIGHT ∧
    _async_joystick_pos_to_dir 20 20 ≠ JOYSTICK_LEFT := by
  decide

/-- C12, amended: for every sample `(x, y)` outside the dead zone whose two axes have
equal magnitude, `_async_joystick_pos_to_dir` breaks the tie toward the vertical
axis: it returns UP when `y > 0` and DOWN when `y < 0`, never LEFT or RIGHT. -/
theorem tie_break_vertical (x y : Int) (hxy : abs x = abs y)
    (hout : ¬ (abs x < JOYSTICK_CUTOFF ∧ abs y < JOYSTICK_CUTOFF)) :
    (y > 0 → _async_joystick_pos_to_dir x y = JOYSTICK_UP) ∧
    (y < 0 → _async_joystick_pos_to_dir x y = JOYSTICK_DOWN) ∧
    (y > 0 ∨ y < 0) ∧
    _async_joystick_pos_to_dir x y ≠ JOYSTICK_LEFT ∧
    _async_joystick_pos_to_dir x y ≠ JOYSTICK_RIGHT := by
  have hx := ABS_eq_abs x
  have hy := ABS_eq_abs y
  have h1 : ¬ (ABS x < JOYSTICK_CUTOFF ∧ ABS y < JOYSTICK_CUTOFF) := by
    rw [hx, hy]
    exact hout
  have h2 : ¬ (x > 0 ∧ ABS y < x) := by
    rintro ⟨hp, hl⟩
    rw [hy, ← hxy, abs_of_pos hp] at hl
    exact lt_irrefl x hl
  have h3 : ¬ (x < 0 ∧ ABS y < -x) := by
    rintro ⟨hn, hl⟩
    rw [hy, ← hxy, abs_of_neg hn] at hl
    exact lt_irrefl (-x) hl
  have hy0 : y > 0 ∨ y < 0 := by
    rcases lt_trichotomy y 0 with h | h | h
    · exact Or.inr h
    · exfalso
      apply hout
      rw [hxy, h]
      unfold JOYSTICK_CUTOFF
      exact ⟨by decide, by decide⟩
    · exact Or.inl h
  have hval : _async_joystick_pos_to_dir x y =
      if y > 0 then JOYSTICK_UP else JOYSTICK_DOWN := by
    unfold _async_joystick_pos_to_dir
    rw [if_neg h1, if_neg h2, if_neg h3]
  refine ⟨?_, ?_, hy0, ?_, ?_⟩
  · intro h
    rw [hval, if_pos h]
  · intro h
    rw [hval, if_neg (not_lt.2 (le_of_lt h))]
  · rw [hval]
    split_ifs <;> decide
  · rw [hval]
    split_ifs <;> decide

theorem tie_break_vertical_witness :
    abs (-20 : Int) = abs (20 : Int) ∧
    ¬ (abs (-20 : Int) < JOYSTICK_CUTOFF ∧ abs (20 : Int) < JOYSTICK_CUTOFF) ∧
    _async_joystick_pos_to_dir (-20) 20 = JOYSTICK_UP ∧
    _async_joystick_pos_to_dir (-20) 20 ≠ JOYSTICK_LEFT :=
  ⟨by decide, by decide,
   (tie_break_vertical (-20) 20 (by decide) (by decide)).1 (by decide),
   (tie_break_vertical (-20) 20 (by decide) (by decide)).2.2.2.1⟩

/-! ## Claim C13 -/

theorem score_to_speed_no_wrap (s : Int) :
    score_to_speed s =
      if s < 3 then 500
      else if s < 5 then 300
      else if s < 10 then 250
      else if s < 15 then 200
      else if s < 25 then 200 - (s - 15) * 10
      else 100 := by
  unfold score_to_speed
  by_cases h : 15 ≤ s ∧ s < 25
  · rw [Int.emod_eq_of_lt (by omega) (by omega)]
  · split_ifs <;> first | rfl | omega

/-- C13 (score-to-period curve): for all integer scores `a ≤ b`,
`score_to_speed b ≤ score_to_speed a`, across the boundaries at 3, 5, 10, 15 and 25
as well, and for every integer score `s`, `score_to_speed s ≥ 100`. -/
theorem score_to_speed_antitone (a b : Int) (h : a ≤ b) :
    score_to_speed b ≤ score_to_speed a ∧ ∀ s : Int, 100 ≤ score_to_speed s := by
  constructor
  · rw [score_to_speed_no_wrap a, score_to_speed_no_wrap b]
    split_ifs <;> omega
  · intro s
    rw [score_to_speed_no_wrap s]
    split_ifs <;> omega

theorem score_to_speed_antitone_witness :
    (14 : Int) ≤ 15 ∧ (score_to_speed 15 ≤ score_to_speed 14 ∧
      ∀ s : Int, 100 ≤ score_to_speed s) :=
  ⟨by decide, score_to_speed_antitone 14 15 (by decide)⟩

/-! ## Claim C15 -/

/-- C15 (direction codec): the opposite of a direction is the direction whose
encoding is the negated encoding (LEFT = -1, RIGHT = 1, UP = -2, DOWN = 2,
UNKNOWN = 0), and the encoding determines the direction; negating twice gives the
encoding back, so the opposite of the opposite is the direction itself; LEFT and
RIGHT are opposite, UP and DOWN are opposite; and for each of LEFT, RIGHT, UP, DOWN
the negated encoding differs from the encoding. -/
theorem direction_codec (d : snake_dir_t) :
    (opposite_dir d).toInt = - d.toInt ∧
    (∀ e : snake_dir_t, e.toInt = d.toInt → e = d) ∧
    - (- d.toInt) = d.toInt ∧
    opposite_dir (opposite_dir d) = d ∧
    (DIR_RIGHT.toInt = - DIR_LEFT.toInt ∧ DIR_LEFT.toInt = - DIR_RIGHT.toInt ∧
      DIR_DOWN.toInt = - DIR_UP.toInt ∧ DIR_UP.toInt = - DIR_DOWN.toInt) ∧
    (- DIR_LEFT.toInt ≠ DIR_LEFT.toInt ∧ - DIR_RIGHT.toInt ≠ DIR_RIGHT.toInt ∧
      - DIR_UP.toInt ≠ DIR_UP.toInt ∧ - DIR_DOWN.toInt ≠ DIR_DOWN.toInt) ∧
    (d = DIR_UNKNOWN ∨ opposite_dir d ≠ d) := by
  refine ⟨?_, ?_, ?_, ?_, ?_, ?_, ?_⟩
  · cases d <;> decide
  · intro e
    cases d <;> cases e <;> decide
  · omega
  · cases d <;> rfl
  · decide
  · decide
  · cases d <;> decide

/-! ## Claim C14 -/

theorem snake_move_single (s : snake_t) (c : coord_t)
    (h : s.head = s.tail ∧ s.tail < MAX_SNAKE_LENGTH) :
    (snake_move s c).head = (snake_move s c).tail ∧
    (snake_move s c).tail < MAX_SNAKE_LENGTH := by
  obtain ⟨h1, _⟩ := h
  refine ⟨?_, ?_⟩
  · show ((s.head + 1) % UINT_MOD) % MAX_SNAKE_LENGTH =
      ((s.tail + 1) % UINT_MOD) % MAX_SNAKE_LENGTH
    rw [h1]
  · show ((s.tail + 1) % UINT_MOD) % MAX_SNAKE_LENGTH < MAX_SNAKE_LENGTH
    exact Nat.mod_lt _ (by decide)

theorem snake_moves_single (cs : List coord_t) (s : snake_t)
    (h : s.head = s.tail ∧ s.tail < MAX_SNAKE_LENGTH) :
    (snake_moves s cs).head = (snake_moves s cs).tail ∧
    (snake_moves s cs).tail < MAX_SNAKE_LENGTH := by
  induction cs generalizing s with
  | nil => exact h
  | cons c cs ih => exact ih (snake_move s c) (snake_move_single s c h)

theorem snake_moves_snoc (s : snake_t) (cs : List coord_t) (c : coord_t) :
    snake_moves s (cs ++ [c]) = snake_move (snake_moves s cs) c := by
  unfold snake_moves
  rw [List.foldl_append]
  rfl

/-- C14 (body buffer under move): for a snake made by `snake_init` and any finite
sequence `cs` of `snake_move` calls followed by one more call with `c`, after that
call `head` and `tail` are below `MAX_SNAKE_LENGTH`, the length
`((head - tail) mod MAX_SNAKE_LENGTH) + 1` lies in `[1, MAX_SNAKE_LENGTH]`, equals
the length before the call (which is 1), and `segments[head]` is `c`. -/
theorem snake_move_keeps_length (s0 : snake_t) (init_pos : coord_t)
    (cs : List coord_t) (c : coord_t) :
    (snake_moves (snake_init s0 init_pos) (cs ++ [c])).head < MAX_SNAKE_LENGTH ∧
    (snake_moves (snake_init s0 init_pos) (cs ++ [c])).tail < MAX_SNAKE_LENGTH ∧
    1 ≤ live_length (snake_moves (snake_init s0 init_pos) (cs ++ [c])) ∧
    live_length (snake_moves (snake_init s0 init_pos) (cs ++ [c])) ≤ MAX_SNAKE_LENGTH ∧
    ((live_length (snake_moves (snake_init s0 init_pos) (cs ++ [c])) : Nat) : Int) =
      (((snake_moves (snake_init s0 init_pos) (cs ++ [c])).head : Int) -
        ((snake_moves (snake_init s0 init_pos) (cs ++ [c])).tail : Int)) %
        (MAX_SNAKE_LENGTH : Int) + 1 ∧
    live_length (snake_moves (snake_init s0 init_pos) (cs ++ [c])) =
      live_length (snake_moves (snake_init s0 init_pos) cs) ∧
    live_length (snake_moves (snake_init s0 init_pos) cs) = 1 ∧
    (snake_moves (snake_init s0 init_pos) (cs ++ [c])).segments
      (snake_moves (snake_init s0 init_pos) (cs ++ [c])).head = c := by
  have h0 : (snake_init s0 init_pos).head = (snake_init s0 init_pos).tail ∧
      (snake_init s0 init_pos).tail < MAX_SNAKE_LENGTH := by
    refine ⟨rfl, ?_⟩
    show 0 < MAX_SNAKE_LENGTH
    decide
  have h1 := snake_moves_single cs _ h0
  have h2 := snake_moves_single (cs ++ [c]) _ h0
  have e1 : live_length (snake_moves (snake_init s0 init_pos) cs) = 1 := by
    unfold live_length
    unfold MAX_SNAKE_LENGTH at *
    omega
  have e2 : live_length (snake_moves (snake_init s0 init_pos) (cs ++ [c])) = 1 := by
    unfold live_length
    unfold MAX_SNAKE_LENGTH at *
    omega
  refine ⟨?_, h2.2, ?_, ?_, ?_, ?_, e1, ?_⟩
  · rw [h2.1]
    exact h2.2
  · rw [e2]
  · rw [e2]
    decide
  · rw [e2, h2.1]
    unfold MAX_SNAKE_LENGTH
    push_cast
    omega
  · rw [e1, e2]
  · rw [snake_moves_snoc]
    simp only [snake_move, snake_pop_segment, snake_add_segment, seg_set, if_true]

/-! ## Claim C17 -/

theorem live_segments_move_any (s : snake_t) (c : coord_t)
    (ht : s.tail < MAX_SNAKE_LENGTH) (hh : s.head < MAX_SNAKE_LENGTH) :
    live_segments (snake_move s c) = (live_segments s).tail ++ [c] ∧
    live_length (snake_move s c) = live_length s := by
  unfold MAX_SNAKE_LENGTH at ht hh
  have hlen : live_length (snake_move s c) = live_length s := by
    simp only [live_length, snake_move, snake_pop_segment, snake_add_segment,
      MAX_SNAKE_LENGTH, UINT_MOD]
    omega
  obtain ⟨n, hn⟩ : ∃ n, live_length s = n + 1 := ⟨live_length s - 1, by
    have := live_length_pos s
    omega⟩
  refine ⟨?_, hlen⟩
  have e1 : live_segments (snake_move s c) =
      (List.range n).map (fun i => (snake_move s c).segments
        (((snake_move s c).tail + i) % MAX_SNAKE_LENGTH)) ++
      [(snake_move s c).segments (((snake_move s c).tail + n) % MAX_SNAKE_LENGTH)] := by
    unfold live_segments
    rw [hlen, hn, List.range_succ, List.map_append, List.map_singleton]
  have e2 : (live_segments s).tail =
      (List.range n).map ((fun i => s.segments ((s.tail + i) % MAX_SNAKE_LENGTH)) ∘
        Nat.succ) := by
    unfold live_segments
    rw [hn, List.range_succ_eq_map, List.map_cons, List.tail_cons, List.map_map]
  rw [e1, e2]
  unfold live_length MAX_SNAKE_LENGTH at hn
  congr 1
  · apply List.map_congr_left
    intro i hi
    rw [List.mem_range] at hi
    simp only [snake_move, snake_pop_segment, snake_add_segment, seg_set,
      MAX_SNAKE_LENGTH, UINT_MOD, Function.comp, Nat.succ_eq_add_one]
    rw [if_neg (by omega)]
    congr 1
    omega
  · simp only [snake_move, snake_pop_segment, snake_add_segment, seg_set,
      MAX_SNAKE_LENGTH, UINT_MOD]
    rw [if_pos (by omega)]

/-- C17 (tail-following is allowed): in an unfinished state with indices inside the
buffer whose map is consistent with the body (the live segments are pairwise
distinct, they are exactly the snake cells of the grid, and the food coordinate is
not on the body), in particular one whose body has at least 2 segments, if the new
head is the coordinate of the tail segment then `snake_game_update` returns an
unfinished state: `head` and `tail` each advance by one slot, the new head segment
is the old tail cell, the body is the old one without its tail followed by the new
head, the score and the food coordinate are as before, and the map is again
consistent with the body. -/
theorem tail_following (game : snake_game_t) (d : snake_dir_t)
    (hf : game.is_finished = false)
    (ht : game.snake.tail < MAX_SNAKE_LENGTH) (hh : game.snake.head < MAX_SNAKE_LENGTH)
    (hn : (live_segments game.snake).Nodup) (hs : SnakeCellsAreBody game)
    (hrb : game.rabbit ∉ live_segments game.snake)
    (hnh : new_head_of game d = game.snake.segments game.snake.tail) :
    ∃ game1, snake_game_update game d = some game1 ∧
      game1.is_finished = false ∧
      game1.snake.head = (game.snake.head + 1) % MAX_SNAKE_LENGTH ∧
      game1.snake.tail = (game.snake.tail + 1) % MAX_SNAKE_LENGTH ∧
      game1.snake.segments game1.snake.head = game.snake.segments game.snake.tail ∧
      live_segments game1.snake =
        (live_segments game.snake).tail ++ [game.snake.segments game.snake.tail] ∧
      live_length game1.snake = live_length game.snake ∧
      game1.score = game.score ∧ game1.rabbit = game.rabbit ∧
      (live_segments game1.snake).Nodup ∧ SnakeCellsAreBody game1 ∧
      game1.rabbit ∉ live_segments game1.snake := by
  have hcons1 := live_segments_cons game.snake ht
  have hmem : ∀ p, p ∈ live_segments game.snake ↔
      p = game.snake.segments game.snake.tail ∨ p ∈ (live_segments game.snake).tail := by
    intro p
    conv_lhs => rw [hcons1]
    exact List.mem_cons
  have hn1 := hn
  rw [hcons1, List.nodup_cons] at hn1
  obtain ⟨htl, hnt⟩ := hn1
  have hr : ¬ ((new_head_of game d).x = game.rabbit.x ∧
      (new_head_of game d).y = game.rabbit.y) := by
    rw [← coord_eq_iff, hnh]
    intro e
    exact hrb ((hmem _).2 (Or.inl e.symm))
  have hcl : MAP_ELEM (MAP_SET game.map (game.snake.segments game.snake.tail) CELL_EMPTY)
      (new_head_of game d) = CELL_EMPTY := by
    rw [MAP_ELEM_MAP_SET, if_pos hnh]
  obtain ⟨a1, a2⟩ := live_segments_move_any (turned_snake game d) (new_head_of game d) ht hh
  have a1 : live_segments (snake_move (turned_snake game d) (new_head_of game d)) =
      (live_segments game.snake).tail ++ [game.snake.segments game.snake.tail] := by
    rw [a1, hnh]
    rfl
  have a2 : live_length (snake_move (turned_snake game d) (new_head_of game d)) =
      live_length game.snake := a2
  have hmem1 : ∀ p, p ∈ live_segments (snake_move (turned_snake game d)
      (new_head_of game d)) ↔ p ∈ live_segments game.snake := by
    intro p
    rw [a1, hmem, List.mem_append, List.mem_singleton]
    exact Or.comm
  refine ⟨_, update_move game d hf hr hcl, hf, ?_, ?_, ?_, a1, a2, rfl, rfl, ?_, ⟨?_, ?_⟩, ?_⟩
  · unfold MAX_SNAKE_LENGTH at hh
    simp only [snake_move, snake_pop_segment, snake_add_segment, turned_snake,
      MAX_SNAKE_LENGTH, UINT_MOD]
    omega
  · unfold MAX_SNAKE_LENGTH at ht
    simp only [snake_move, snake_pop_segment, snake_add_segment, turned_snake,
      MAX_SNAKE_LENGTH, UINT_MOD]
    omega
  · simp only [snake_move, snake_pop_segment, snake_add_segment, seg_set, if_true]
    exact hnh
  · simp only [a1]
    rw [List.nodup_append_comm]
    simp only [List.singleton_append, List.nodup_cons]
    exact ⟨htl, hnt⟩
  · intro c hc
    exact hs.1 c ((hmem1 c).1 hc)
  · intro y hy x hx
    show MAP_ELEM (MAP_SET (MAP_SET game.map (game.snake.segments game.snake.tail) CELL_EMPTY)
      (new_head_of game d) CELL_SNAKE) ⟨y, x⟩ = CELL_SNAKE ↔
      (⟨y, x⟩ : coord_t) ∈ live_segments (snake_move (turned_snake game d)
        (new_head_of game d))
    rw [hmem1, MAP_ELEM_MAP_SET, MAP_ELEM_MAP_SET, hnh]
    by_cases e : (⟨y, x⟩ : coord_t) = game.snake.segments game.snake.tail
    · rw [if_pos e]
      exact ⟨fun _ => (hmem _).2 (Or.inl e), fun _ => rfl⟩
    · rw [if_neg e, if_neg e]
      exact hs.2 y hy x hx
  · intro hm
    exact hrb ((hmem1 _).1 hm)

theorem reachable_after_square : Reachable (game_after square_dirs) :=
  reachable_game_after _ ⟨_, snake_game_init_eq zero_game, by decide!⟩

theorem tail_following_witness :
    ((game_after square_dirs).is_finished = false ∧
      2 ≤ live_length (game_after square_dirs).snake ∧
      new_head_of (game_after square_dirs) DIR_UP =
        (game_after square_dirs).snake.segments (game_after square_dirs).snake.tail) ∧
    ∃ game1, snake_game_update (game_after square_dirs) DIR_UP = some game1 ∧
      game1.is_finished = false ∧
      game1.snake.head = ((game_after square_dirs).snake.head + 1) % MAX_SNAKE_LENGTH ∧
      game1.snake.tail = ((game_after square_dirs).snake.tail + 1) % MAX_SNAKE_LENGTH ∧
      game1.snake.segments game1.snake.head =
        (game_after square_dirs).snake.segments (game_after square_dirs).snake.tail ∧
      live_segments game1.snake =
        (live_segments (game_after square_dirs).snake).tail ++
          [(game_after square_dirs).snake.segments (game_after square_dirs).snake.tail] ∧
      live_length game1.snake = live_length (game_after square_dirs).snake ∧
      game1.score = (game_after square_dirs).score ∧
      game1.rabbit = (game_after square_dirs).rabbit ∧
      (live_segments game1.snake).Nodup ∧ SnakeCellsAreBody game1 ∧
      game1.rabbit ∉ live_segments game1.snake :=
  have hyp : (game_after square_dirs).is_finished = false ∧
      2 ≤ live_length (game_after square_dirs).snake ∧
      new_head_of (game_after square_dirs) DIR_UP =
        (game_after square_dirs).snake.segments (game_after square_dirs).snake.tail := by
    decide!
  have hinv := reachable_inv (game_after square_dirs) reachable_after_square
  have hc := hinv.2.2.2 hyp.1
  ⟨hyp,
   tail_following (game_after square_dirs) DIR_UP hyp.1 hinv.1 hinv.2.1 hc.1 hc.2.1
     (consistent_facts (game_after square_dirs) DIR_UP hc hinv.1 hinv.2.1).2.2.1 hyp.2.2⟩

/-! ## `body_update` follows `snake_game_update` -/

theorem snake_next_head_pos_eq_next_pos (s : snake_t) :
    snake_next_head_pos s = next_pos (s.segments s.head) s.dir := by
  unfold next_pos snake_next_head_pos
  cases s.dir <;> rfl

theorem getLast_live_segments (s : snake_t) (ht : s.tail < MAX_SNAKE_LENGTH)
    (hh : s.head < MAX_SNAKE_LENGTH) :
    (live_segments s).getLast? = some (s.segments s.head) := by
  obtain ⟨n, hn⟩ : ∃ n, live_length s = n + 1 := ⟨live_length s - 1, by
    have := live_length_pos s
    omega⟩
  unfold MAX_SNAKE_LENGTH at ht hh
  have e : (s.tail + n) % MAX_SNAKE_LENGTH = s.head := by
    unfold live_length at hn
    unfold MAX_SNAKE_LENGTH at *
    omega
  unfold live_segments
  rw [hn, List.range_succ, List.map_append, List.map_singleton, List.getLast?_concat, e]

theorem body_map_eq (c : body_state) (game : snake_game_t) (h : BodyRep c game) :
    ∀ y x, y < SNAKE_GAME_HEIGHT → x < SNAKE_GAME_WIDTH → game.map y x = body_map c y x := by
  obtain ⟨hinv, hf, hl, _, hr⟩ := h
  obtain ⟨_, ⟨_, hs⟩, _, _, hrab⟩ := hinv.2.2.2 hf
  intro y x hy hx
  have hany : (c.body.any (fun p => p.y == y && p.x == x) = true) ↔
      (⟨y, x⟩ : coord_t) ∈ c.body := by
    rw [List.any_eq_true]
    constructor
    · rintro ⟨p, hp, he⟩
      simp only [Bool.and_eq_true, beq_iff_eq] at he
      have e : p = ⟨y, x⟩ := by
        cases p
        simp only at he
        rw [he.1, he.2]
      rw [← e]
      exact hp
    · intro hm
      exact ⟨⟨y, x⟩, hm, by simp⟩
  have hrb : (c.rabbit.y == y && c.rabbit.x == x) = true ↔ (⟨y, x⟩ : coord_t) = c.rabbit := by
    simp only [Bool.and_eq_true, beq_iff_eq]
    constructor
    · rintro ⟨h1, h2⟩
      cases hc : c.rabbit
      rw [hc] at h1 h2
      simp only at h1 h2
      rw [h1, h2]
    · intro e
      rw [← e]
      exact ⟨rfl, rfl⟩
  unfold body_map
  by_cases h1 : (⟨y, x⟩ : coord_t) ∈ c.body
  · rw [if_pos (hany.2 h1)]
    rw [← hl] at h1
    exact (hs y hy x hx).2 h1
  · have h1a : ¬ (c.body.any (fun p => p.y == y && p.x == x) = true) := fun h => h1 (hany.1 h)
    rw [if_neg h1a]
    by_cases h2 : (⟨y, x⟩ : coord_t) = c.rabbit
    · rw [if_pos (hrb.2 h2)]
      rw [← hr] at h2
      exact (hrab y hy x hx).2 h2
    · have h2a : ¬ ((c.rabbit.y == y && c.rabbit.x == x) = true) := fun h => h2 (hrb.1 h)
      rw [if_neg h2a]
      rcases cell_cases (game.map y x) with e | e | e
      · exact e
      · rw [← hl] at h1
        exact absurd ((hs y hy x hx).1 e) h1
      · rw [← hr] at h2
        exact absurd ((hrab y hy x hx).1 e) h2

theorem body_rep_head (c : body_state) (game : snake_game_t) (d : snake_dir_t)
    (h : BodyRep c game) :
    ∃ head, c.body.getLast? = some head ∧
      snake_choose_dir game.snake d =
        snake_choose_dir { segments := fun _ => head, dir := c.dir, tail := 0, head := 0 } d ∧
      new_head_of game d = next_pos head (snake_choose_dir game.snake d) := by
  obtain ⟨hinv, _, hl, hd, _⟩ := h
  refine ⟨game.snake.segments game.snake.head, ?_, ?_, ?_⟩
  · rw [← hl]
    exact getLast_live_segments game.snake hinv.1 hinv.2.1
  · unfold snake_choose_dir
    simp only [hd]
  · unfold new_head_of
    rw [snake_next_head_pos_eq_next_pos]
    rfl

theorem body_update_sim (c c1 : body_state) (game : snake_game_t) (d : snake_dir_t)
    (h : BodyRep c game) (hu : body_update c d = some c1) :
    ∃ game1, snake_game_update game d = some game1 ∧ BodyRep c1 game1 := by
  obtain ⟨head, hlast, hdir, hnh⟩ := body_rep_head c game d h
  have hmap := body_map_eq c game h
  obtain ⟨hinv, hf, hl, hd, hr⟩ := h
  have hscan : snake_get_empty_coord game.map = snake_get_empty_coord (body_map c) :=
    snake_get_empty_coord_congr _ _ hmap
  obtain ⟨h1, h2, h3, hlen, hin⟩ :=
    consistent_facts game d (hinv.2.2.2 hf) hinv.1 hinv.2.1
  unfold body_update at hu
  rw [hlast] at hu
  simp only [← hdir, ← hnh, ← hr] at hu
  by_cases hfood : new_head_of game d = game.rabbit
  · rw [if_pos hfood] at hu
    cases hsc : snake_get_empty_coord (body_map c) with
    | none =>
      rw [hsc] at hu
      exact absurd hu (by simp)
    | some r =>
      rw [hsc] at hu
      simp only [Option.some.injEq] at hu
      rw [← hscan] at hsc
      have hupd := update_rabbit game d r hf ((coord_eq_iff _ _).1 hfood) hsc
      refine ⟨_, hupd, inv_rabbit game d r hinv hf hfood hsc, rfl, ?_, ?_, ?_⟩
      · rw [← hu]
        show live_segments (snake_add_segment (turned_snake game d) (new_head_of game d)) = _
        rw [(live_segments_add (turned_snake game d) (new_head_of game d) hinv.1 hinv.2.1
          hlen).1]
        show live_segments game.snake ++ _ = _
        rw [hl]
      · rw [← hu]
        rfl
      · rw [← hu]
  · rw [if_neg hfood] at hu
    by_cases hcol : new_head_of game d ∈ c.body.tail
    · rw [if_pos hcol] at hu
      exact absurd hu (by simp)
    · rw [if_neg hcol] at hu
      simp only [Option.some.injEq] at hu
      have hcl : MAP_ELEM (MAP_SET game.map (game.snake.segments game.snake.tail) CELL_EMPTY)
          (new_head_of game d) = CELL_EMPTY := by
        rw [MAP_ELEM_MAP_SET]
        by_cases e : new_head_of game d = game.snake.segments game.snake.tail
        · rw [if_pos e]
        · rw [if_neg e]
          rcases cell_cases (MAP_ELEM game.map (new_head_of game d)) with e1 | e1 | e1
          · exact e1
          · have hm := (h1 _ hin.1 hin.2).1 e1
            rw [live_segments_cons game.snake hinv.1, List.mem_cons] at hm
            rcases hm with hm | hm
            · exact absurd hm e
            · rw [hl] at hm
              exact absurd hm hcol
          · exact absurd ((h2 _ hin.1 hin.2).1 e1) hfood
      have hne : ¬ ((new_head_of game d).x = game.rabbit.x ∧
          (new_head_of game d).y = game.rabbit.y) := fun e => hfood ((coord_eq_iff _ _).2 e)
      have hupd := update_move game d hf hne hcl
      refine ⟨_, hupd, inv_move game d hinv hf hfood hcl, hf, ?_, ?_, ?_⟩
      · rw [← hu]
        show live_segments (snake_move (turned_snake game d) (new_head_of game d)) = _
        rw [(live_segments_move_any (turned_snake game d) (new_head_of game d) hinv.1
          hinv.2.1).1]
        show (live_segments game.snake).tail ++ _ = _
        rw [hl]
      · rw [← hu]
        rfl
      · rw [← hu]

theorem body_run_sim (ds : List snake_dir_t) (c c1 : body_state) (game : snake_game_t)
    (h : BodyRep c game) (hu : body_run c ds = some c1) :
    ∃ game1, snake_game_run game ds = some game1 ∧ BodyRep c1 game1 := by
  induction ds generalizing c game with
  | nil =>
    unfold body_run at hu
    cases hu
    exact ⟨game, rfl, h⟩
  | cons d ds ih =>
    unfold body_run at hu
    cases hb : body_update c d with
    | none =>
      rw [hb] at hu
      exact absurd hu (by simp)
    | some c2 =>
      rw [hb] at hu
      obtain ⟨game2, hg2, hrep2⟩ := body_update_sim c c2 game d h hb
      obtain ⟨game1, hg1, hrep1⟩ := ih c2 game2 hrep2 hu
      refine ⟨game1, ?_, hrep1⟩
      unfold snake_game_run
      rw [hg2]
      exact hg1

theorem body_rep_init (game0 game : snake_game_t) (h : snake_game_init game0 = some game) :
    BodyRep init_body game := by
  have hinv := inv_init game0 game h
  rw [snake_game_init_eq] at h
  cases h
  refine ⟨hinv, rfl, ?_, rfl, rfl⟩
  simp [live_segments, live_length, snake_init, seg_set, MAX_SNAKE_LENGTH, List.range_succ,
    init_body]

theorem body_run_append (ds1 ds2 : List snake_dir_t) (c c1 : body_state)
    (h : body_run c ds1 = some c1) : body_run c (ds1 ++ ds2) = body_run c1 ds2 := by
  induction ds1 generalizing c with
  | nil =>
    simp only [body_run, Option.some.injEq] at h
    rw [h, List.nil_append]
  | cons d ds ih =>
    rw [List.cons_append]
    simp only [body_run] at h ⊢
    cases hu : body_update c d with
    | none => rw [hu] at h; exact absurd h (by simp)
    | some c2 =>
      rw [hu] at h
      exact ih c2 h

theorem full_dirs_eq :
    full_dirs = ham_lap ++ (ham_lap ++ (ham_lap ++ (ham_lap ++ (ham_lap ++ (ham_lap ++
      (ham_lap ++ (ham_lap ++ (ham_lap ++ (ham_lap ++ (ham_lap ++ (ham_lap ++ (ham_lap ++
      (ham_lap ++ ham_lap.take 12))))))))))))) := by
  decide!

theorem body_run_lap_1 :
    body_run init_body ham_lap = some (lap_body 2 ⟨1, 4⟩) := by decide!

theorem body_run_lap_2 :
    body_run (lap_body 2 ⟨1, 4⟩) ham_lap = some (lap_body 4 ⟨1, 6⟩) := by decide!

theorem body_run_lap_3 :
    body_run (lap_body 4 ⟨1, 6⟩) ham_lap = some (lap_body 6 ⟨3, 1⟩) := by decide!

theorem body_run_lap_4 :
    body_run (lap_body 6 ⟨3, 1⟩) ham_lap = some (lap_body 8 ⟨3, 1⟩) := by decide!

theorem body_run_lap_5 :
    body_run (lap_body 8 ⟨3, 1⟩) ham_lap = some (lap_body 10 ⟨3, 1⟩) := by decide!

theorem body_run_lap_6 :
    body_run (lap_body 10 ⟨3, 1⟩) ham_lap = some (lap_body 12 ⟨3, 1⟩) := by decide!

theorem body_run_lap_7 :
    body_run (lap_body 12 ⟨3, 1⟩) ham_lap = some (lap_body 14 ⟨3, 1⟩) := by decide!

theorem body_run_lap_8 :
    body_run (lap_body 14 ⟨3, 1⟩) ham_lap = some (lap_body 17 ⟨3, 1⟩) := by decide!

theorem body_run_lap_9 :
    body_run (lap_body 17 ⟨3, 1⟩) ham_lap = some (lap_body 20 ⟨3, 2⟩) := by decide!

theorem body_run_lap_10 :
    body_run (lap_body 20 ⟨3, 2⟩) ham_lap = some (lap_body 24 ⟨3, 2⟩) := by decide!

theorem body_run_lap_11 :
    body_run (lap_body 24 ⟨3, 2⟩) ham_lap = some (lap_body 29 ⟨3, 2⟩) := by decide!

theorem body_run_lap_12 :
    body_run (lap_body 29 ⟨3, 2⟩) ham_lap = some (lap_body 37 ⟨4, 2⟩) := by decide!

theorem body_run_lap_13 :
    body_run (lap_body 37 ⟨4, 2⟩) ham_lap = some (lap_body 45 ⟨3, 2⟩) := by decide!

theorem body_run_lap_14 :
    body_run (lap_body 45 ⟨3, 2⟩) ham_lap = some (lap_body 58 ⟨4, 2⟩) := by decide!

theorem body_run_lap_15 :
    body_run (lap_body 58 ⟨4, 2⟩) (ham_lap.take 12) = some full_body := by decide!

theorem body_run_full : body_run init_body full_dirs = some full_body := by
  rw [full_dirs_eq,
    body_run_append _ _ _ _ body_run_lap_1, body_run_append _ _ _ _ body_run_lap_2,
    body_run_append _ _ _ _ body_run_lap_3, body_run_append _ _ _ _ body_run_lap_4,
    body_run_append _ _ _ _ body_run_lap_5, body_run_append _ _ _ _ body_run_lap_6,
    body_run_append _ _ _ _ body_run_lap_7, body_run_append _ _ _ _ body_run_lap_8,
    body_run_append _ _ _ _ body_run_lap_9, body_run_append _ _ _ _ body_run_lap_10,
    body_run_append _ _ _ _ body_run_lap_11, body_run_append _ _ _ _ body_run_lap_12,
    body_run_append _ _ _ _ body_run_lap_13, body_run_append _ _ _ _ body_run_lap_14]
  exact body_run_lap_15

theorem game_after_eq (ds : List snake_dir_t) (game1 game : snake_game_t)
    (h0 : snake_game_init zero_game = some game1) (h1 : snake_game_run game1 ds = some game) :
    game_after ds = game := by
  unfold game_after
  simp only [h0, h1]

theorem full_grid_state :
    Reachable (game_after full_dirs) ∧ BodyRep full_body (game_after full_dirs) := by
  have h0 := snake_game_init_eq zero_game
  obtain ⟨game, hrun, hrep⟩ :=
    body_run_sim full_dirs init_body full_body _ (body_rep_init zero_game _ h0) body_run_full
  rw [game_after_eq full_dirs _ game h0 hrun]
  exact ⟨⟨zero_game, _, full_dirs, h0, hrun⟩, hrep⟩

theorem full_grid_facts (game : snake_game_t) (h : BodyRep full_body game) :
    new_head_of game DIR_LEFT = game.rabbit ∧
    snake_get_empty_coord game.map = none ∧
    snake_game_update game DIR_LEFT = none ∧
    (live_segments game.snake).length = 63 ∧ game.score = 63 := by
  obtain ⟨head, hlast, hdir, hnh⟩ := body_rep_head full_body game DIR_LEFT h
  have hmap := body_map_eq full_body game h
  obtain ⟨hinv, hf, hl, hd, hr⟩ := h
  have hhead : head = ⟨5, 5⟩ := by
    have e : full_body.body.getLast? = some ⟨5, 5⟩ := by decide
    rw [e] at hlast
    cases hlast
    rfl
  have hfood : new_head_of game DIR_LEFT = game.rabbit := by
    rw [hnh, hdir, hhead, hr]
    decide
  have hscan : snake_get_empty_coord game.map = none := by
    rw [snake_get_empty_coord_congr _ _ hmap]
    decide!
  have hlen : (live_segments game.snake).length = 63 := by
    rw [hl]
    decide
  refine ⟨hfood, hscan, ?_, hlen, ?_⟩
  · have hfood1 := (coord_eq_iff _ _).1 hfood
    unfold new_head_of turned_snake at hfood1
    unfold snake_game_update
    simp only [hf, Bool.false_eq_true, if_false, hfood1, and_self, if_true, hscan]
  · rw [hinv.2.2.1, ← length_live_segments, hlen]

/-- C2, at the failing input: after `snake_game_init` on zeroed storage and the 908
updates `full_dirs` the game is reached and not finished, the body lies on 63 cells
and no cell of the grid is `CELL_EMPTY`; the next update with `DIR_LEFT` is a food
step, and on this map `snake_get_empty_coord` returns `best_coord` without having
written it, so the food coordinate of that update, and the cell it marks
`CELL_RABBIT`, come from an uninitialised local. -/
theorem full_grid_food_step_finds_no_cell :
    Reachable (game_after full_dirs) ∧
    (game_after full_dirs).is_finished = false ∧
    (live_segments (game_after full_dirs).snake).length = 63 ∧
    ¬ has_empty (game_after full_dirs).map ∧
    new_head_of (game_after full_dirs) DIR_LEFT = (game_after full_dirs).rabbit ∧
    snake_get_empty_coord (game_after full_dirs).map = none := by
  obtain ⟨hreach, hrep⟩ := full_grid_state
  obtain ⟨hfood, hscan, _, hlen, _⟩ := full_grid_facts _ hrep
  refine ⟨hreach, hrep.2.1, hlen, ?_, hfood, hscan⟩
  intro he
  obtain ⟨b, hb⟩ := snake_get_empty_coord_isSome _ he
  rw [hscan] at hb
  exact absurd hb (by simp)

/-! ## Claim C6 -/

end SnakeAvr
